import Mathlib

/-!
Verification development for the Agentic Google Form Generator pipeline.

Strings are modeled as lists of characters (`Str := List Char`).  Python
dictionaries coming from JSON are modeled as association lists in insertion
order; `dict.get(key, default)` is modeled with `Option.getD`.  Machine
floating point never influences any verified property, so embedding vectors
are modeled as lists of integers (only their length and emptiness are ever
inspected by the code).  The fenced-code-block marker (three backticks) is
written via `Char.ofNat 96`, and curly braces via `Char.ofNat 123 / 125`.
-/

abbrev Str := List Char

/-- The backtick character, used by the markdown fence markers. -/
def btick : Char := Char.ofNat 96

/-- Opening curly brace character. -/
def lbrace : Char := Char.ofNat 123

/-- Closing curly brace character. -/
def rbrace : Char := Char.ofNat 125

/-- ASCII whitespace stripped by Python str.strip (space, tab, newline,
vertical tab, form feed, carriage return). -/
def isPySpace (c : Char) : Bool :=
  c = ' ' || c = '\t' || c = '\n' || c = Char.ofNat 11 || c = Char.ofNat 12 || c = '\r'

/-- Python text.strip(): remove leading and trailing whitespace. -/
def pyStrip (s : Str) : Str :=
  ((s.dropWhile isPySpace).reverse.dropWhile isPySpace).reverse

/-- The three-backtick markdown fence marker. -/
def fenceMarker : Str := [btick, btick, btick]

/-- The seven-character marker removed first by the regex alternation in
extract_json (three backticks followed by the letters json). -/
def fenceJsonMarker : Str := fenceMarker ++ ['j', 's', 'o', 'n']

/-- Fuel-driven worker for removeFences; the fuel is always instantiated
with the input length, which suffices since every step consumes input. -/
def removeFencesF : Nat → Str → Str
  | 0, s => s
  | fuel + 1, s =>
    match s with
    | [] => []
    | c :: rest =>
      if fenceJsonMarker.isPrefixOf (c :: rest) then removeFencesF fuel ((c :: rest).drop 7)
      else if fenceMarker.isPrefixOf (c :: rest) then removeFencesF fuel ((c :: rest).drop 3)
      else c :: removeFencesF fuel rest

/-- Model of re.sub applied with the pattern alternation of the json fence
marker and the plain fence marker in app/agents/planner/nodes/llm_inference.py:
every occurrence is removed, scanning left to right, preferring the longer
json-marked fence at equal positions (regex alternation order). -/
def removeFences (s : Str) : Str := removeFencesF s.length s

/-- JSON values as parsed by json.loads.  Objects are association lists in
insertion order.  Numbers with a fraction or exponent part are kept as their
literal text (constructor fnum); no verified property inspects their value. -/
inductive Json where
  | null : Json
  | bool (b : Bool) : Json
  | num (n : Int) : Json
  | fnum (lit : Str) : Json
  | str (chars : Str) : Json
  | arr (elems : List Json) : Json
  | obj (members : List (Str × Json)) : Json

/-- JSON whitespace accepted between tokens by json.loads
(space, tab, newline, carriage return). -/
def isJsonWs (c : Char) : Bool :=
  c = ' ' || c = '\t' || c = '\n' || c = '\r'

/-- Skip JSON inter-token whitespace. -/
def skipJsonWs (s : Str) : Str := s.dropWhile isJsonWs

/-- Value of a hex digit, used for unicode escapes in JSON strings. -/
def hexVal (c : Char) : Option Nat :=
  if c.isDigit then some (c.toNat - 48)
  else if 'a' ≤ c && c ≤ 'f' then some (c.toNat - 87)
  else if 'A' ≤ c && c ≤ 'F' then some (c.toNat - 70)
  else none

/-- Parse the body of a JSON string after the opening quote, handling escape
sequences; strict mode rejects raw control characters, as json.loads does.
The accumulator holds the decoded characters in reverse. -/
def parseStringBody : Nat → Str → Str → Option (Str × Str)
  | 0, _, _ => none
  | fuel + 1, s, acc =>
    match s with
    | [] => none
    | '"' :: rest => some (acc.reverse, rest)
    | '\\' :: esc =>
      match esc with
      | '"' :: r => parseStringBody fuel r ('"' :: acc)
      | '\\' :: r => parseStringBody fuel r ('\\' :: acc)
      | '/' :: r => parseStringBody fuel r ('/' :: acc)
      | 'b' :: r => parseStringBody fuel r (Char.ofNat 8 :: acc)
      | 'f' :: r => parseStringBody fuel r (Char.ofNat 12 :: acc)
      | 'n' :: r => parseStringBody fuel r ('\n' :: acc)
      | 'r' :: r => parseStringBody fuel r ('\r' :: acc)
      | 't' :: r => parseStringBody fuel r ('\t' :: acc)
      | 'u' :: h1 :: h2 :: h3 :: h4 :: r =>
        match hexVal h1, hexVal h2, hexVal h3, hexVal h4 with
        | some a, some b, some c, some d =>
          parseStringBody fuel r (Char.ofNat (((a * 16 + b) * 16 + c) * 16 + d) :: acc)
        | _, _, _, _ => none
      | _ => none
    | c :: rest =>
      if c.toNat < 32 then none else parseStringBody fuel rest (c :: acc)

/-- Integer value of a digit list. -/
def digitsVal (ds : List Char) : Int :=
  ds.foldl (fun a c => a * 10 + (Int.ofNat (c.toNat - 48))) 0

/-- Parse the integer part of a JSON number: a single zero, or a nonzero
digit followed by digits. -/
def parseIntPart : Str → Option (List Char × Str)
  | [] => none
  | c :: r =>
    if c = '0' then some (['0'], r)
    else if c.isDigit then some (c :: r.takeWhile Char.isDigit, r.dropWhile Char.isDigit)
    else none

/-- Consume an optional fraction part followed by an optional exponent part
of a JSON number literal; returns the consumed characters and the rest. -/
def takeFracExp (s : Str) : List Char × Str :=
  let (fr, r1) :=
    match s with
    | '.' :: d :: r =>
      if d.isDigit then ('.' :: d :: r.takeWhile Char.isDigit, r.dropWhile Char.isDigit)
      else ([], s)
    | _ => ([], s)
  let (ex, r2) :=
    match r1 with
    | e :: '+' :: d :: r =>
      if (e = 'e' || e = 'E') && d.isDigit then
        (e :: '+' :: d :: r.takeWhile Char.isDigit, r.dropWhile Char.isDigit)
      else ([], r1)
    | e :: '-' :: d :: r =>
      if (e = 'e' || e = 'E') && d.isDigit then
        (e :: '-' :: d :: r.takeWhile Char.isDigit, r.dropWhile Char.isDigit)
      else ([], r1)
    | e :: d :: r =>
      if (e = 'e' || e = 'E') && d.isDigit then
        (e :: d :: r.takeWhile Char.isDigit, r.dropWhile Char.isDigit)
      else ([], r1)
    | _ => ([], r1)
  (fr ++ ex, r2)

/-- Parse a JSON number token.  Plain integers become Json.num; literals with
a fraction or exponent are kept as text in Json.fnum. -/
def parseNumber (s : Str) : Option (Json × Str) :=
  let (neg, s1) := match s with | '-' :: r => (true, r) | _ => (false, s)
  match parseIntPart s1 with
  | none => none
  | some (ip, r1) =>
    let (fe, r2) := takeFracExp r1
    if fe.isEmpty then
      some (Json.num (if neg then -(digitsVal ip) else digitsVal ip), r2)
    else
      some (Json.fnum ((if neg then ['-'] else []) ++ ip ++ fe), r2)

/-- Parser modes of the json.loads grammar: a single value, the member list
of an object (after the opening brace and a first-member check), or the
element list of an array, with the members or elements parsed so far. -/
inductive JsonParseMode where
  | value : JsonParseMode
  | objMembers (acc : List (Str × Json)) : JsonParseMode
  | arrElems (acc : List Json) : JsonParseMode

/-- Recursive-descent grammar of json.loads over an explicit mode, with fuel
(always instantiated generously above the input length; every recursive step
either consumes input or descends into a subterm that does). -/
def parseJson : Nat → JsonParseMode → Str → Option (Json × Str)
  | 0, _, _ => none
  | fuel + 1, JsonParseMode.value, s =>
    match skipJsonWs s with
    | [] => none
    | c :: rest =>
      if c = lbrace then
        match skipJsonWs rest with
        | d :: r2 =>
          if d = rbrace then some (Json.obj [], r2)
          else parseJson fuel (JsonParseMode.objMembers []) rest
        | [] => none
      else if c = '[' then
        match skipJsonWs rest with
        | ']' :: r2 => some (Json.arr [], r2)
        | _ => parseJson fuel (JsonParseMode.arrElems []) rest
      else if c = '"' then
        match parseStringBody (rest.length + 1) rest [] with
        | some (cs, r) => some (Json.str cs, r)
        | none => none
      else if c = 't' then
        (match rest with | 'r' :: 'u' :: 'e' :: r => some (Json.bool true, r) | _ => none)
      else if c = 'f' then
        (match rest with | 'a' :: 'l' :: 's' :: 'e' :: r => some (Json.bool false, r) | _ => none)
      else if c = 'n' then
        (match rest with | 'u' :: 'l' :: 'l' :: r => some (Json.null, r) | _ => none)
      else if c = '-' || c.isDigit then parseNumber (c :: rest)
      else none
  | fuel + 1, JsonParseMode.objMembers acc, s =>
    match skipJsonWs s with
    | '"' :: rest =>
      match parseStringBody (rest.length + 1) rest [] with
      | none => none
      | some (key, r1) =>
        match skipJsonWs r1 with
        | ':' :: r2 =>
          match parseJson fuel JsonParseMode.value r2 with
          | none => none
          | some (v, r3) =>
            match skipJsonWs r3 with
            | ',' :: r4 => parseJson fuel (JsonParseMode.objMembers (acc ++ [(key, v)])) r4
            | d :: r4 =>
              if d = rbrace then some (Json.obj (acc ++ [(key, v)]), r4) else none
            | [] => none
        | _ => none
    | _ => none
  | fuel + 1, JsonParseMode.arrElems acc, s =>
    match parseJson fuel JsonParseMode.value s with
    | none => none
    | some (v, r1) =>
      match skipJsonWs r1 with
      | ',' :: r2 => parseJson fuel (JsonParseMode.arrElems (acc ++ [v])) r2
      | ']' :: r2 => some (Json.arr (acc ++ [v]), r2)
      | _ => none

/-- Model of json.loads: parse one JSON value and require that only
whitespace remains. -/
def loads (s : Str) : Option Json :=
  match parseJson (2 * s.length + 2) JsonParseMode.value s with
  | some (v, rest) => if (skipJsonWs rest).isEmpty then some v else none
  | none => none

/-- Model of extract_json in app/agents/planner/nodes/llm_inference.py.
Returns the member list of the extracted JSON object, or none where the
Python function raises (empty input, undecodable text, non-object value).
Mirrors the source: reject empty input; strip; remove markdown fences when
the text starts with one and strip again; attempt a direct parse (a decode
failure falls through, a parsed non-object raises); otherwise search for the
greedy first-brace-to-last-brace block and parse that. -/
def extract_json (input : Str) : Option (List (Str × Json)) :=
  if input.isEmpty then none
  else
    let text0 := pyStrip input
    let text :=
      if fenceMarker.isPrefixOf text0 then pyStrip (removeFences text0) else text0
    match loads text with
    | some (Json.obj kvs) => some kvs
    | some _ => none
    | none =>
      match text.findIdx? (fun c => c = lbrace), text.reverse.findIdx? (fun c => c = rbrace) with
      | some i, some rj =>
        let j := text.length - 1 - rj
        if i < j then
          match loads ((text.drop i).take (j - i + 1)) with
          | some (Json.obj kvs) => some kvs
          | _ => none
        else none
      | _, _ => none

/-- Validation bounds of a field ({min, max, pattern} in the snapshot JSON).
A bound that is absent or null is modeled as none. -/
structure FieldValidation where
  min : Option Int
  max : Option Int
  pattern : Option String
deriving DecidableEq

/-- A field of a form snapshot, as the dictionaries consumed by the three
field-to-question converters.  Every key may be absent (none); dict.get
defaults are applied at each use site, as in the source. -/
structure FormField where
  ftype : Option String
  label : Option String
  required : Option Bool
  options : Option (List String)
  validation : Option FieldValidation
deriving DecidableEq

/-- Question payload variants produced by convert_field_to_question in
app/core/google_forms.py. -/
inductive GFQuestionKind where
  | textQuestion (paragraph : Bool) : GFQuestionKind
  | choiceQuestion (ctype : String) (options : List String) : GFQuestionKind
  | dateQuestion (includeTime includeYear : Bool) : GFQuestionKind
  | timeQuestion (duration : Bool) : GFQuestionKind
deriving DecidableEq

/-- A createItem request of the Google Forms batchUpdate body, as built by
convert_field_to_question in app/core/google_forms.py. -/
structure GFCreateItem where
  title : String
  required : Bool
  question : GFQuestionKind
  locationIndex : Nat
deriving DecidableEq

/-- Model of convert_field_to_question in app/core/google_forms.py: returns
none exactly for file-upload fields (skipped: unsupported by the external
API); any unknown type falls back to short-answer text. -/
def convert_field_to_question (field : FormField) (index : Nat) : Option GFCreateItem :=
  let field_type := field.ftype.getD "text"
  let label := field.label.getD "Question"
  let required := field.required.getD false
  if field_type = "file" then none
  else
    let kind :=
      if field_type = "text" then GFQuestionKind.textQuestion false
      else if field_type = "paragraph" then GFQuestionKind.textQuestion true
      else if field_type = "email" then GFQuestionKind.textQuestion false
      else if field_type = "phone" then GFQuestionKind.textQuestion false
      else if field_type = "number" then GFQuestionKind.textQuestion false
      else if field_type = "dropdown" then
        GFQuestionKind.choiceQuestion "DROP_DOWN" (field.options.getD [])
      else if field_type = "checkbox" then
        GFQuestionKind.choiceQuestion "CHECKBOX" (field.options.getD [])
      else if field_type = "radio" then
        GFQuestionKind.choiceQuestion "RADIO" (field.options.getD [])
      else if field_type = "date" then GFQuestionKind.dateQuestion false true
      else if field_type = "time" then GFQuestionKind.timeQuestion false
      else GFQuestionKind.textQuestion false
    some { title := label, required := required, question := kind, locationIndex := index }

/-- The question-building loop shared by create_google_form and
update_google_form in app/core/google_forms.py: enumerate the fields, pass
the compacted location (enumeration index minus the number of fields skipped
so far), collect the requests, and record the raw label (field.get without a
default) of each skipped field. -/
def buildQuestionRequests : List FormField → Nat → Nat → List GFCreateItem × List (Option String)
  | [], _, _ => ([], [])
  | field :: rest, index, skippedCount =>
    match convert_field_to_question field (index - skippedCount) with
    | none =>
      let r := buildQuestionRequests rest (index + 1) (skippedCount + 1)
      (r.1, field.label :: r.2)
    | some q =>
      let r := buildQuestionRequests rest (index + 1) skippedCount
      (q :: r.1, r.2)

/-- The requests and skipped-fields lists produced for a snapshot's field
list by app/core/google_forms.py (both the create and the update path run
the identical loop starting from index 0 with no skips). -/
def formQuestionRequests (fields : List FormField) : List GFCreateItem × List (Option String) :=
  buildQuestionRequests fields 0 0

/-- A question dictionary produced by convert_fields_to_questions in
app/agents/executor/nodes/execute_forms_mcp.py.  An Option field models
presence of the corresponding key; minBound/maxBound are doubly optional
because the number branch copies possibly-null validation values through. -/
structure MCPQuestion where
  title : String
  required : Bool
  qtype : Option String
  validationTag : Option String
  options : Option (List String)
  minBound : Option (Option Int)
  maxBound : Option (Option Int)
  maxFiles : Option Nat
  maxFileSize : Option Nat
deriving DecidableEq

/-- Model of one iteration of convert_fields_to_questions in
app/agents/executor/nodes/execute_forms_mcp.py.  Note that a file field is
mapped to a FILE_UPLOAD question (not skipped), and an unknown type leaves
the type key unset. -/
def convert_field_to_mcp_question (field : FormField) : MCPQuestion :=
  let field_type := field.ftype.getD "text"
  let label := field.label.getD "Question"
  let required := field.required.getD false
  let options := field.options.getD []
  let base : MCPQuestion :=
    { title := label, required := required, qtype := none, validationTag := none,
      options := none, minBound := none, maxBound := none, maxFiles := none,
      maxFileSize := none }
  if field_type = "text" then { base with qtype := some "SHORT_ANSWER" }
  else if field_type = "paragraph" then { base with qtype := some "PARAGRAPH" }
  else if field_type = "email" then
    { base with qtype := some "SHORT_ANSWER", validationTag := some "EMAIL" }
  else if field_type = "phone" then
    { base with qtype := some "SHORT_ANSWER", validationTag := some "PHONE" }
  else if field_type = "number" then
    let base2 := { base with qtype := some "SHORT_ANSWER", validationTag := some "NUMBER" }
    match field.validation with
    | some v => { base2 with minBound := some v.min, maxBound := some v.max }
    | none => base2
  else if field_type = "dropdown" then
    { base with qtype := some "DROPDOWN", options := some options }
  else if field_type = "checkbox" then
    { base with qtype := some "CHECKBOX", options := some options }
  else if field_type = "radio" then
    { base with qtype := some "MULTIPLE_CHOICE", options := some options }
  else if field_type = "date" then { base with qtype := some "DATE" }
  else if field_type = "time" then { base with qtype := some "TIME" }
  else if field_type = "file" then
    { base with
        qtype := some "FILE_UPLOAD", maxFiles := some 1,
        maxFileSize := some 10485760 }
  else if field_type = "rating" then
    { base with
        qtype := some "SCALE",
        minBound := some (some ((field.validation.bind FieldValidation.min).getD 1)),
        maxBound := some (some ((field.validation.bind FieldValidation.max).getD 5)) }
  else base

/-- Model of convert_fields_to_questions in
app/agents/executor/nodes/execute_forms_mcp.py: one question is appended for
every field, file uploads included. -/
def convert_fields_to_questions (fields : List FormField) : List MCPQuestion :=
  fields.map convert_field_to_mcp_question

/-- Question payload variants produced by the private field converter in
app/agents/executor/nodes/convert_to_google_forms_node.py. -/
inductive GFNodeQuestion where
  | textQuestion (paragraph : Bool) (textValidation : Option String) : GFNodeQuestion
  | choiceQuestion (ctype : String) (options : List String) : GFNodeQuestion
  | dateQuestion (includeTime includeYear : Bool) : GFNodeQuestion
  | timeQuestion (duration : Bool) : GFNodeQuestion
  | fileUploadQuestion (folderId : String) (maxFiles : Nat) (maxFileSize : Nat) : GFNodeQuestion
  | scaleQuestion (low high : Int) (lowLabel highLabel : String) : GFNodeQuestion
deriving DecidableEq

/-- A createItem request produced by the converter node. -/
structure GFNodeCreateItem where
  title : String
  required : Bool
  question : GFNodeQuestion
  locationIndex : Nat
deriving DecidableEq

/-- Model of the private field converter in
app/agents/executor/nodes/convert_to_google_forms_node.py: always returns a
request (file fields become a fileUploadQuestion), at the uncompacted
enumeration index handed in by its caller. -/
def node_convert_field_to_question (field : FormField) (index : Nat) : GFNodeCreateItem :=
  let field_type := field.ftype.getD "text"
  let label := field.label.getD "Question"
  let required := field.required.getD false
  let kind :=
    if field_type = "text" then GFNodeQuestion.textQuestion false none
    else if field_type = "paragraph" then GFNodeQuestion.textQuestion true none
    else if field_type = "email" then GFNodeQuestion.textQuestion false (some "IS_EMAIL")
    else if field_type = "phone" then GFNodeQuestion.textQuestion false none
    else if field_type = "number" then
      match field.validation with
      | some _ => GFNodeQuestion.textQuestion false (some "IS_NUMBER")
      | none => GFNodeQuestion.textQuestion false none
    else if field_type = "dropdown" then
      GFNodeQuestion.choiceQuestion "DROP_DOWN" (field.options.getD [])
    else if field_type = "checkbox" then
      GFNodeQuestion.choiceQuestion "CHECKBOX" (field.options.getD [])
    else if field_type = "radio" then
      GFNodeQuestion.choiceQuestion "RADIO" (field.options.getD [])
    else if field_type = "date" then GFNodeQuestion.dateQuestion false true
    else if field_type = "time" then GFNodeQuestion.timeQuestion false
    else if field_type = "file" then GFNodeQuestion.fileUploadQuestion "" 1 10485760
    else if field_type = "rating" then
      let low := (field.validation.bind FieldValidation.min).getD 1
      let high := (field.validation.bind FieldValidation.max).getD 5
      GFNodeQuestion.scaleQuestion low high (toString low) (toString high)
    else GFNodeQuestion.textQuestion false none
  { title := label, required := required, question := kind, locationIndex := index }

/-- The question loop of convert_to_google_forms_node: every enumerated field
yields one request at its raw enumeration index (the converter never returns
a falsy value, so nothing is filtered out). -/
def node_convert_fields (fields : List FormField) : List GFNodeCreateItem :=
  fields.enum.map (fun p => node_convert_field_to_question p.2 p.1)

/-- The collection dimension fixed by app/core/qdrant_client.py
(text-embedding-3-small). -/
def qdrantVectorSize : Nat := 1536

/-- Payload stored with each point by store_embedding. -/
structure QdrantPayload where
  conversation_id : String
  form_snapshot : List (Str × Json)
  snapshot_type : String

/-- A point of the Qdrant collection. -/
structure QdrantPoint where
  id : String
  vector : List Int
  payload : QdrantPayload

/-- Point-id upsert semantics of the external Qdrant client (a capability
interface: at most one point per id; an upsert with an existing id replaces
that point, otherwise the point is appended). -/
def upsertPoint (points : List QdrantPoint) (p : QdrantPoint) : List QdrantPoint :=
  if points.any (fun q => q.id = p.id) then
    points.map (fun q => if q.id = p.id then p else q)
  else points ++ [p]

/-- Model of store_embedding in app/core/qdrant_client.py: reject a vector
whose length differs from the collection dimension (the Python code raises),
otherwise upsert a point whose id is the conversation id and whose payload
wraps the snapshot. -/
def store_embedding (points : List QdrantPoint) (conversation_id : String)
    (vector : List Int) (payload : List (Str × Json)) : Option (List QdrantPoint) :=
  if vector.length ≠ qdrantVectorSize then none
  else some (upsertPoint points
    { id := conversation_id, vector := vector,
      payload := { conversation_id := conversation_id, form_snapshot := payload,
                   snapshot_type := "form_schema" } })

/-- Python truthiness of an optional string (None and the empty string are
falsy). -/
def pyTruthy : Option String → Bool
  | none => false
  | some s => !(s == "")

/-- Python truthiness of an optional JSON object (None and the empty dict
are falsy). -/
def pyTruthySnap : Option (List (Str × Json)) → Bool
  | none => false
  | some kvs => !kvs.isEmpty

/-- The executor_state JSON stamped onto a conversation by
send_response_node on success. -/
structure ExecutorStamp where
  form_id : Option String
  form_url : Option String
  created_at : Nat
  status : String
deriving DecidableEq

/-- A row of the conversations table (app/models/conversation.py), with the
columns the verified pipeline reads or writes.  Timestamps are abstract
clock values. -/
structure ConversationRow where
  id : String
  user_id : String
  status : String
  form_snapshot : Option (List (Str × Json))
  current_version : Int
  executor_state : Option ExecutorStamp
  updated_at : Option Nat

/-- The payload shapes the pipeline stores in agent_tasks.task_payload. -/
inductive TaskPayload where
  | snapshot (kvs : List (Str × Json)) : TaskPayload
  | formCreated (form_id form_url : Option String) : TaskPayload
  | formCreationFailed (error details : Option String) : TaskPayload

/-- A row of the agent_tasks table (app/models/agent_task.py). -/
structure AgentTaskRow where
  id : String
  conversation_id : Option String
  task_type : String
  source_agent : String
  target_agent : String
  task_payload : TaskPayload
  status : String
  error_message : Option String
  created_at : Nat
  started_at : Option Nat
  completed_at : Option Nat

/-- A row of the forms table (app/models/forms.py), the PublishedForm record
of the specification. -/
structure FormRow where
  google_form_id : String
  user_id : String
  conversation_id : String
  form_url : String
deriving DecidableEq

/-- The relational storage visible to the verified pipeline.  Storage is
modeled as deterministic: a transaction either applies all buffered writes
at its single commit or none (session rollback). -/
structure DB where
  conversations : List ConversationRow
  agent_tasks : List AgentTaskRow
  forms : List FormRow

/-- Point lookup of a conversation by id. -/
def getConv (db : DB) (cid : String) : Option ConversationRow :=
  db.conversations.find? (fun c => c.id == cid)

/-- Point lookup of a task by id. -/
def getTask (db : DB) (tid : String) : Option AgentTaskRow :=
  db.agent_tasks.find? (fun t => t.id == tid)

/-- Update every task row carrying the given id. -/
def updateTasks (ts : List AgentTaskRow) (tid : String) (f : AgentTaskRow → AgentTaskRow) :
    List AgentTaskRow :=
  ts.map (fun t => if t.id = tid then f t else t)

/-- Update a task row inside the storage. -/
def updateTaskRow (db : DB) (tid : String) (f : AgentTaskRow → AgentTaskRow) : DB :=
  { db with agent_tasks := updateTasks db.agent_tasks tid f }

/-- Update a conversation row inside the storage. -/
def updateConvRow (db : DB) (cid : String) (f : ConversationRow → ConversationRow) : DB :=
  { db with conversations := db.conversations.map (fun c => if c.id = cid then f c else c) }

/-- Outcome of one call to an external capability: a value, or a raised
exception with its message. -/
inductive ExtCall (α : Type) where
  | ok (val : α) : ExtCall α
  | exn (msg : String) : ExtCall α

/-- Per-invocation behavior of the external capabilities used by
llm_inference_node: the generation call, the repair generation call, the
embedding call, and whether the Qdrant upsert raises. -/
structure PlannerOracle where
  generate : ExtCall Str
  generateRepair : ExtCall Str
  embed : ExtCall (List Int)
  qdrantStoreFails : Bool

/-- The planner-state keys llm_inference_node returns, together with call
counters for the verification of the repair discipline (repairCalls counts
repair re-prompts issued, extractCalls counts extract_json attempts). -/
structure PlannerNodeResult where
  error : Option String
  details : Option String
  raw_output : Option Str
  llm_output : Option (List (Str × Json))
  repairCalls : Nat
  extractCalls : Nat

/-- The steps of llm_inference_node after a successful JSON extraction:
persist the snapshot on the conversation, then best-effort embedding and
Qdrant upsert whose failures (exception, empty vector, dimension mismatch,
store error) are swallowed. -/
def llmInferencePersistAndIndex (o : PlannerOracle) (conversation_id : String)
    (parsed : List (Str × Json)) (rc ec : Nat) (db : DB) (qd : List QdrantPoint) :
    DB × List QdrantPoint × PlannerNodeResult :=
  match getConv db conversation_id with
  | none =>
    (db, qd, { error := some "conversation_not_found", details := none, raw_output := none,
               llm_output := none, repairCalls := rc, extractCalls := ec })
  | some _ =>
    let db1 := updateConvRow db conversation_id (fun c => { c with form_snapshot := some parsed })
    let qd1 :=
      match o.embed with
      | ExtCall.exn _ => qd
      | ExtCall.ok v =>
        if v.isEmpty then qd
        else if v.length ≠ qdrantVectorSize then qd
        else if o.qdrantStoreFails then qd
        else
          match store_embedding qd conversation_id v parsed with
          | some qd2 => qd2
          | none => qd
    (db1, qd1, { error := none, details := none, raw_output := none,
                 llm_output := some parsed, repairCalls := rc, extractCalls := ec })

/-- Model of llm_inference_node in app/agents/planner/nodes/llm_inference.py:
generation, JSON extraction with exactly one repair re-prompt and one retry,
snapshot persistence, then best-effort embedding and indexing. -/
def llm_inference_node (o : PlannerOracle) (conversation_id : String) (db : DB)
    (qd : List QdrantPoint) : DB × List QdrantPoint × PlannerNodeResult :=
  match o.generate with
  | ExtCall.exn e =>
    (db, qd, { error := some "llm_failure", details := some e, raw_output := none,
               llm_output := none, repairCalls := 0, extractCalls := 0 })
  | ExtCall.ok raw =>
    if raw.isEmpty then
      (db, qd, { error := some "empty_llm_response", details := none, raw_output := none,
                 llm_output := none, repairCalls := 0, extractCalls := 0 })
    else
      match extract_json raw with
      | some parsed => llmInferencePersistAndIndex o conversation_id parsed 0 1 db qd
      | none =>
        match o.generateRepair with
        | ExtCall.exn _ =>
          (db, qd, { error := some "invalid_json", details := none, raw_output := some raw,
                     llm_output := none, repairCalls := 1, extractCalls := 1 })
        | ExtCall.ok repaired =>
          match extract_json repaired with
          | none =>
            (db, qd, { error := some "invalid_json", details := none, raw_output := some raw,
                       llm_output := none, repairCalls := 1, extractCalls := 2 })
          | some parsed => llmInferencePersistAndIndex o conversation_id parsed 1 2 db qd

/-- Model of a2a_sender_node in app/agents/planner/nodes/a2a_sender.py:
insert a pending execute_form task carrying the parsed snapshot; a commit
failure rolls back and reports a2a_sender_db_error. -/
def a2a_sender_node (newTaskId : String) (commitOk : Bool) (conversation_id : String)
    (llm_output : Option (List (Str × Json))) (now : Nat) (db : DB) : DB × Option String :=
  match llm_output with
  | none => (db, some "a2a_sender_missing_llm_output")
  | some kvs =>
    if commitOk then
      ({ db with agent_tasks := db.agent_tasks ++
          [{ id := newTaskId, conversation_id := some conversation_id,
             task_type := "execute_form", source_agent := "planner",
             target_agent := "executor", task_payload := TaskPayload.snapshot kvs,
             status := "pending", error_message := none, created_at := now,
             started_at := none, completed_at := none }] }, none)
    else (db, some "a2a_sender_db_error")

/-- Model of the planner graph of app/agents/planner/graph.py: intent parsing
(prompt construction only, no storage effect), llm_inference, then the
conditional edge running a2a_sender only when llm_inference reported no
error. -/
def run_planner_graph (o : PlannerOracle) (newTaskId : String) (a2aCommitOk : Bool)
    (conversation_id : String) (now : Nat) (db : DB) (qd : List QdrantPoint) :
    DB × List QdrantPoint × PlannerNodeResult :=
  let r := llm_inference_node o conversation_id db qd
  match r.2.2.error with
  | some _ => r
  | none =>
    let a := a2a_sender_node newTaskId a2aCommitOk conversation_id r.2.2.llm_output now r.1
    match a.2 with
    | some e => (a.1, r.2.1, { r.2.2 with error := some e })
    | none => (a.1, r.2.1, r.2.2)

/-- The executor pipeline state (app/agents/executor/state.py), restricted
to the keys the verified nodes read or write. -/
structure ExecutorState where
  task_id : Option String
  conversation_id : Option String
  form_snapshot : Option (List (Str × Json))
  access_token : Option String
  refresh_token : Option String
  status : String
  error : Option String
  details : Option String
  form_id : Option String
  form_url : Option String

/-- Per-invocation behavior of the external MCP form-builder calls made by
execute_forms_mcp_node: whether the create/update call raises, and the
external id and url a successful create returns. -/
structure McpOutcome where
  ok : Bool
  newFormId : String
  newFormUrl : String

/-- SQLAlchemy scalar_one_or_none: none for no row, the row when unique, and
an exception (modeled as Option.none of the outer Except) for several rows. -/
def scalar_one_or_none {α : Type} : List α → Option (Option α)
  | [] => some none
  | [x] => some (some x)
  | _ => none

/-- The form rows matching a conversation id. -/
def formsFor (db : DB) (cid : String) : List FormRow :=
  db.forms.filter (fun f => f.conversation_id == cid)

/-- Model of execute_forms_mcp_node in
app/agents/executor/nodes/execute_forms_mcp.py: validate inputs, look up an
existing Form row by conversation id, then either update the existing
external form in place (no storage change, same external id) or create a new
external form.  The if-not validation gates follow Python truthiness: a
missing and an empty snapshot dict both fail with missing_form_snapshot, a
missing and an empty credential string both fail with missing_credentials;
a successful create inserts one Form row when the conversation exists.  Any
exception of the body (MCP failure, multiple rows) yields the
mcp_execution_error failure state with storage unchanged. -/
def execute_forms_mcp_node (mcp : McpOutcome) (db : DB) (st : ExecutorState) :
    DB × ExecutorState :=
  if !(pyTruthySnap st.form_snapshot) then
    (db, { st with status := "failed", error := some "missing_form_snapshot" })
  else if !(pyTruthy st.access_token) || !(pyTruthy st.refresh_token) then
    (db, { st with status := "failed", error := some "missing_credentials" })
  else
    let existingQuery : Option (Option FormRow) :=
      match st.conversation_id with
      | some cid => if cid == "" then some none else scalar_one_or_none (formsFor db cid)
      | none => some none
    match existingQuery with
    | none =>
      (db, { st with status := "failed", error := some "mcp_execution_error" })
    | some (some existing) =>
      if mcp.ok then
        (db, { st with form_id := some existing.google_form_id,
                       form_url := some existing.form_url, status := "completed" })
      else (db, { st with status := "failed", error := some "mcp_execution_error" })
    | some none =>
      if !mcp.ok then
        (db, { st with status := "failed", error := some "mcp_execution_error" })
      else
        let db1 :=
          match st.conversation_id with
          | some cid =>
            if cid == "" then db
            else
              match getConv db cid with
              | some conv =>
                { db with forms := db.forms ++
                    [{ google_form_id := mcp.newFormId, user_id := conv.user_id,
                       conversation_id := cid, form_url := mcp.newFormUrl }] }
              | none => db
          | none => db
        (db1, { st with form_id := some mcp.newFormId,
                        form_url := some mcp.newFormUrl, status := "completed" })

/-- A sequence of Materialization Stage invocations threading the storage;
each invocation has its own external-call behavior and pipeline state. -/
def runMaterializationSeq (db : DB) : List (McpOutcome × ExecutorState) → DB
  | [] => db
  | (m, st) :: rest => runMaterializationSeq (execute_forms_mcp_node m db st).1 rest

/-- The response payload built by send_response_node. -/
structure ResponsePayload where
  success : Bool
  form_id : Option String
  form_url : Option String
  error : Option String
  details : Option String
  message : String
deriving DecidableEq

/-- The form_created notification task inserted by send_response_node on the
success path. -/
def formCreatedTask (newTaskId : String) (st : ExecutorState) (now : Nat) : AgentTaskRow :=
  { id := newTaskId, conversation_id := st.conversation_id,
    task_type := "form_created", source_agent := "executor",
    target_agent := "planner",
    task_payload := TaskPayload.formCreated st.form_id st.form_url,
    status := "pending", error_message := none, created_at := now,
    started_at := none, completed_at := none }

/-- The form_creation_failed notification task inserted by send_response_node
on the failure path. -/
def formCreationFailedTask (newTaskId : String) (st : ExecutorState) (now : Nat) : AgentTaskRow :=
  { id := newTaskId, conversation_id := st.conversation_id,
    task_type := "form_creation_failed", source_agent := "executor",
    target_agent := "planner",
    task_payload := TaskPayload.formCreationFailed st.error st.details,
    status := "pending", error_message := none, created_at := now,
    started_at := none, completed_at := none }

/-- The executor_state stamp written on the conversation by the Response
Stage success path. -/
def publishedStamp (st : ExecutorState) (now : Nat) : ExecutorStamp :=
  { form_id := st.form_id, form_url := st.form_url,
    created_at := now, status := "published" }

/-- The three buffered writes of send_response_node in
app/agents/executor/nodes/send_response_node.py, as applied together by its
single commit: update the originating task's status and completed_at, stamp
the conversation executor_state on the success path, and insert the
notification task (form_created on success, form_creation_failed on
failure). -/
def sendResponseWrites (newTaskId : String) (now : Nat) (st : ExecutorState) (db : DB) : DB :=
  let status := st.status
  let db1 :=
    match st.task_id with
    | some tid => if tid == "" then db else updateTaskRow db tid
        (fun t => { t with status := status, completed_at := some now })
    | none => db
  let stamp : ExecutorStamp := publishedStamp st now
  let db2 :=
    match st.conversation_id with
    | some cid =>
      if cid == "" || !(status == "completed") || !(pyTruthy st.form_url) then db1
      else updateConvRow db1 cid (fun c => { c with executor_state := some stamp })
    | none => db1
  if status == "completed" then
    { db2 with agent_tasks := db2.agent_tasks ++ [formCreatedTask newTaskId st now] }
  else if status == "failed" then
    { db2 with agent_tasks := db2.agent_tasks ++ [formCreationFailedTask newTaskId st now] }
  else db2

/-- Model of send_response_node: all three writes are buffered in one session
and applied by the single commit at the end; when the transaction fails the
session is rolled back, nothing is applied, and the failure payload
response_send_error is returned. -/
def send_response_node (commitOk : Bool) (newTaskId : String) (now : Nat) (db : DB)
    (st : ExecutorState) : DB × ResponsePayload :=
  if commitOk then
    let payload : ResponsePayload :=
      if st.status == "completed" then
        { success := true, form_id := st.form_id, form_url := st.form_url,
          error := none, details := none, message := "Form created successfully" }
      else
        { success := false, form_id := none, form_url := none, error := st.error,
          details := st.details, message := "Form creation failed" }
    (sendResponseWrites newTaskId now st db, payload)
  else
    (db, { success := false, form_id := none, form_url := none,
           error := some "response_send_error", details := none,
           message := "Form creation failed" })

/-- Result of one executor.process call as seen by the polling worker:
success, a failure result, or a raised exception. -/
inductive ProcOutcome where
  | success : ProcOutcome
  | failure : ProcOutcome
  | exn : ProcOutcome
deriving DecidableEq

/-- Observable worker events: the commit that claims a task (status set to
processing with started_at stamped), the processing call (recording the
status the task row carries at that moment), and the commit of the final
status. -/
inductive WorkerEvent where
  | claimCommit (id : String) : WorkerEvent
  | processTask (id : String) (statusAtCall : String) : WorkerEvent
  | finalCommit (id : String) (status : String) : WorkerEvent
deriving DecidableEq

/-- The row filter of the worker query: pending execute_form tasks targeted
at the executor. -/
def isPendingExecutorTask (t : AgentTaskRow) : Bool :=
  t.target_agent == "executor" && t.status == "pending" && t.task_type == "execute_form"

/-- The query of process_pending_executor_tasks: pending execute_form tasks
targeted at the executor, ordered by creation time (oldest first). -/
def pendingExecutorTasks (db : DB) : List AgentTaskRow :=
  List.insertionSort (fun a b => a.created_at ≤ b.created_at)
    (db.agent_tasks.filter isPendingExecutorTask)

/-- The final status the worker commits for a processing outcome. -/
def workerFinalStatus : ProcOutcome → String
  | ProcOutcome.success => "completed"
  | ProcOutcome.failure => "failed"
  | ProcOutcome.exn => "failed"

/-- The claim write of the worker: status processing, started_at stamped. -/
def claimUpdate (now : Nat) (v : AgentTaskRow) : AgentTaskRow :=
  { v with status := "processing", started_at := some now }

/-- The final write of the worker: the outcome status, completed_at stamped
(the error_message column is never written by this worker). -/
def finishUpdate (st : String) (now : Nat) (v : AgentTaskRow) : AgentTaskRow :=
  { v with status := st, completed_at := some now }

/-- The per-task loop of process_pending_executor_tasks in
app/agents/executor/executor_worker.py: claim the task (status processing,
started_at stamped, committed), run executor.process, then commit completed
on success and failed otherwise; a raised exception also commits failed with
completed_at and continues with the remaining tasks.  No branch writes the
error_message column. -/
def runWorkerTasks (outcome : String → ProcOutcome) (now : Nat) :
    List AgentTaskRow → DB → DB × List WorkerEvent
  | [], db => (db, [])
  | t :: rest, db =>
    let db1 := updateTaskRow db t.id (claimUpdate now)
    let statusAtCall := ((getTask db1 t.id).map AgentTaskRow.status).getD ""
    let db2 := updateTaskRow db1 t.id (finishUpdate (workerFinalStatus (outcome t.id)) now)
    let r := runWorkerTasks outcome now rest db2
    (r.1, WorkerEvent.claimCommit t.id ::
          WorkerEvent.processTask t.id statusAtCall ::
          WorkerEvent.finalCommit t.id (workerFinalStatus (outcome t.id)) :: r.2)

/-- Model of process_pending_executor_tasks: select the pending executor
tasks oldest first and run the per-task loop over them. -/
def process_pending_executor_tasks (outcome : String → ProcOutcome) (now : Nat) (db : DB) :
    DB × List WorkerEvent :=
  runWorkerTasks outcome now (pendingExecutorTasks db) db

/-- The final metadata write of the continue route: version bump by one and
updated_at stamp. -/
def versionBump (now : Nat) (c : ConversationRow) : ConversationRow :=
  { c with current_version := c.current_version + 1, updated_at := some now }

/-- HTTP-level result of the continue_conversation route. -/
structure ContinueResponse where
  httpStatus : Nat
deriving DecidableEq

/-- Model of the continue_conversation route in app/routes/conversation.py:
resolve the conversation by id and owner (404 when absent), reject a
non-active conversation with 400 before the planner pipeline is invoked,
run the planner graph (its error raises 500 after whatever the pipeline
already persisted), and on success bump the version counter by one and stamp
updated_at in a final commit.  The snapshot fetched from the retrieval index
for the planner prompt has no storage effect and is not modeled. -/
def continue_conversation (o : PlannerOracle) (newTaskId : String) (a2aCommitOk : Bool)
    (now : Nat) (db : DB) (qd : List QdrantPoint) (conversation_id userId : String) :
    DB × List QdrantPoint × ContinueResponse :=
  match db.conversations.find? (fun c => c.id == conversation_id && c.user_id == userId) with
  | none => (db, qd, { httpStatus := 404 })
  | some conv =>
    if !(conv.status == "active") then (db, qd, { httpStatus := 400 })
    else
      let r := run_planner_graph o newTaskId a2aCommitOk conversation_id now db qd
      match r.2.2.error with
      | some _ => (r.1, r.2.1, { httpStatus := 500 })
      | none =>
        let db2 := updateConvRow r.1 conversation_id (versionBump now)
        (db2, r.2.1, { httpStatus := 200 })

/-- A snapshot field counts as a file-upload field when its defaulted type
tag is file. -/
def isFileField (f : FormField) : Bool := f.ftype.getD "text" == "file"

/-- Fixture: a file-upload field as it appears in a snapshot. -/
def fileField0 : FormField :=
  { ftype := some "file", label := some "Upload Resume", required := some true,
    options := none, validation := none }

/-- Number of Qdrant points carrying the given id. -/
def qdrantCountFor (points : List QdrantPoint) (cid : String) : Nat :=
  (points.filter (fun p => p.id == cid)).length

/-- Fixture: an active conversation row. -/
def conv0 : ConversationRow :=
  { id := "c1", user_id := "u1", status := "active", form_snapshot := none,
    current_version := 0, executor_state := none, updated_at := none }

/-- Fixture: storage holding just the active conversation. -/
def db0 : DB := { conversations := [conv0], agent_tasks := [], forms := [] }

/-- Number of PublishedForm rows stored for a conversation. -/
def countFormsFor (db : DB) (cid : String) : Nat := (formsFor db cid).length

/-- Fixture: an executor state carrying a snapshot and both credentials for
the fixture conversation. -/
def stA : ExecutorState :=
  { task_id := some "t1", conversation_id := some "c1",
    form_snapshot := some [(['t'], Json.null)],
    access_token := some "at", refresh_token := some "rt", status := "processing",
    error := none, details := none, form_id := none, form_url := none }

/-- Fixture: a succeeding external form-builder call returning form g1. -/
def mcpA : McpOutcome := { ok := true, newFormId := "g1", newFormUrl := "u1" }

/-- Fixture: a succeeding external form-builder call returning form g2. -/
def mcpB : McpOutcome := { ok := true, newFormId := "g2", newFormUrl := "u2" }

/-- Fixture: a processed executor task row. -/
def taskRow1 : AgentTaskRow :=
  { id := "t1", conversation_id := some "c1", task_type := "execute_form",
    source_agent := "planner", target_agent := "executor",
    task_payload := TaskPayload.snapshot [], status := "processing",
    error_message := none, created_at := 1, started_at := some 2, completed_at := none }

/-- Fixture: storage holding the conversation and the processed task. -/
def db1 : DB := { conversations := [conv0], agent_tasks := [taskRow1], forms := [] }

/-- Fixture: the executor state of a completed materialization for the
fixture task. -/
def stDone : ExecutorState :=
  { task_id := some "t1", conversation_id := some "c1", form_snapshot := some [],
    access_token := some "at", refresh_token := some "rt", status := "completed",
    error := none, details := none, form_id := some "g1", form_url := some "u1" }

/-- Fixture: a pending executor task created later than pend2. -/
def pend1 : AgentTaskRow :=
  { id := "t1", conversation_id := some "c1", task_type := "execute_form",
    source_agent := "planner", target_agent := "executor",
    task_payload := TaskPayload.snapshot [], status := "pending",
    error_message := none, created_at := 5, started_at := none, completed_at := none }

/-- Fixture: a pending executor task created earlier than pend1. -/
def pend2 : AgentTaskRow :=
  { id := "t2", conversation_id := some "c1", task_type := "execute_form",
    source_agent := "planner", target_agent := "executor",
    task_payload := TaskPayload.snapshot [], status := "pending",
    error_message := none, created_at := 3, started_at := none, completed_at := none }

/-- Fixture: a worker storage with two pending tasks, newest listed first. -/
def dbW : DB := { conversations := [], agent_tasks := [pend1, pend2], forms := [] }

/-- Fixture: processing outcomes where the older task raises and the newer
one succeeds. -/
def outcomesW : String → ProcOutcome :=
  fun id => if id == "t2" then ProcOutcome.exn else ProcOutcome.success

/-- Fixture: a completed (non-active) conversation. -/
def convArch : ConversationRow :=
  { id := "c2", user_id := "u1", status := "completed", form_snapshot := none,
    current_version := 3, executor_state := none, updated_at := none }

/-- Fixture: storage holding only the completed conversation. -/
def dbC : DB := { conversations := [convArch], agent_tasks := [], forms := [] }


/-- A markdown fence wrapper around a text: plain opening fence, the text on
its own line, closing fence. -/
def wrapFence (s : Str) : Str := fenceMarker ++ ('\n' :: s) ++ ('\n' :: fenceMarker)

/-- A markdown fence wrapper with the json language tag on the opening
fence. -/
def wrapFenceJson (s : Str) : Str := fenceJsonMarker ++ ('\n' :: s) ++ ('\n' :: fenceMarker)

/-- Fixture: the serialization of the object mapping key a to a string value
of three backticks. -/
def exObj : Str := [lbrace, '"', 'a', '"', ':', ' ', '"', btick, btick, btick, '"', rbrace]

/-- Fixture: the serialization of the object mapping key a to the number 1. -/
def exOk : Str := [lbrace, '"', 'a', '"', ':', ' ', '1', rbrace]

/-! Helper lemmas. -/

lemma convert_field_to_question_eq_none_iff (f : FormField) (i : Nat) :
    convert_field_to_question f i = none ↔ isFileField f = true := by
  unfold convert_field_to_question isFileField
  by_cases h : f.ftype.getD "text" = "file" <;> simp [h]

lemma convert_field_to_question_index (f : FormField) (i : Nat) (q : GFCreateItem)
    (h : convert_field_to_question f i = some q) : q.locationIndex = i := by
  unfold convert_field_to_question at h
  by_cases hf : f.ftype.getD "text" = "file"
  · simp [hf] at h
  · simp only [hf, if_false, Option.some.injEq] at h
    rw [← h]

lemma buildQuestionRequests_spec (fields : List FormField) :
    ∀ idx sk : Nat, sk ≤ idx →
    ((buildQuestionRequests fields idx sk).1.map GFCreateItem.locationIndex
        = List.range' (idx - sk) (buildQuestionRequests fields idx sk).1.length)
    ∧ ((buildQuestionRequests fields idx sk).2
        = (fields.filter (fun f => isFileField f)).map FormField.label)
    ∧ ((buildQuestionRequests fields idx sk).1.length
        = (fields.filter (fun f => !(isFileField f))).length) := by
  induction fields with
  | nil => intro idx sk _; simp [buildQuestionRequests]
  | cons f rest ih =>
    intro idx sk h
    by_cases hf : isFileField f = true
    · have hc : convert_field_to_question f (idx - sk) = none :=
        (convert_field_to_question_eq_none_iff _ _).mpr hf
      obtain ⟨ih1, ih2, ih3⟩ := ih (idx + 1) (sk + 1) (by omega)
      have hsub : idx + 1 - (sk + 1) = idx - sk := by omega
      rw [hsub] at ih1
      simp only [buildQuestionRequests, hc]
      refine ⟨ih1, ?_, ?_⟩
      · simp [List.filter_cons, hf, ih2]
      · simp [List.filter_cons, hf, ih3]
    · obtain ⟨q, hq⟩ : ∃ q, convert_field_to_question f (idx - sk) = some q := by
        cases hcv : convert_field_to_question f (idx - sk) with
        | none => exact absurd ((convert_field_to_question_eq_none_iff _ _).mp hcv) hf
        | some q => exact ⟨q, rfl⟩
      obtain ⟨ih1, ih2, ih3⟩ := ih (idx + 1) sk (by omega)
      have hsub : idx + 1 - sk = (idx - sk) + 1 := by omega
      rw [hsub] at ih1
      simp only [buildQuestionRequests, hq]
      refine ⟨?_, ?_, ?_⟩
      · simp only [List.map_cons, List.length_cons, List.range'_succ]
        rw [convert_field_to_question_index f (idx - sk) q hq, ih1]
      · simp [List.filter_cons, hf, ih2]
      · simp [List.filter_cons, hf, ih3]

lemma convert_field_to_mcp_question_file (f : FormField) (hf : isFileField f = true) :
    (convert_field_to_mcp_question f).qtype = some "FILE_UPLOAD" := by
  have h : f.ftype.getD "text" = "file" := by
    simpa [isFileField] using hf
  simp [convert_field_to_mcp_question, h]

lemma node_convert_field_to_question_index (f : FormField) (i : Nat) :
    (node_convert_field_to_question f i).locationIndex = i := rfl

/-! Claim theorems. -/

/-- C1 (counterexample): on the executor's wired materialization path
(execute_forms_mcp_node builds its question list with
convert_fields_to_questions), a schema snapshot holding a single field of
type file yields one created question of type FILE_UPLOAD instead of zero
item-creation operations, so the claim as stated is false; the same holds
for the convert_to_google_forms_node converter, which also keeps the raw
uncompacted location index. -/
theorem c1_file_field_counterexample :
    (convert_fields_to_questions [fileField0]).length = 1
    ∧ (convert_fields_to_questions [fileField0]).map MCPQuestion.qtype
        = [some "FILE_UPLOAD"]
    ∧ (node_convert_field_to_question fileField0 5).question
        = GFNodeQuestion.fileUploadQuestion "" 1 10485760
    ∧ (node_convert_field_to_question fileField0 5).locationIndex = 5 := by
  refine ⟨rfl, ?_, rfl, rfl⟩
  decide

/-- C1 (amended): only the google_forms.py materialization path skips file
fields: there, for every snapshot, a file field produces no createItem
request, its raw label is appended to the skipped-fields list (in order),
and the surviving requests carry the compacted indices 0, 1, ... (each
field's position minus the number of fields skipped before it); the MCP
converter convert_fields_to_questions instead emits exactly one question per
field (a FILE_UPLOAD question for file fields), and the
convert_to_google_forms_node converter emits one request per field at the
raw enumeration index. -/
theorem c1_file_fields_skipped_amended (fields : List FormField) :
    ((formQuestionRequests fields).2
        = (fields.filter (fun f => isFileField f)).map FormField.label)
    ∧ ((formQuestionRequests fields).1.length
        = (fields.filter (fun f => !(isFileField f))).length)
    ∧ ((formQuestionRequests fields).1.map GFCreateItem.locationIndex
        = List.range (formQuestionRequests fields).1.length)
    ∧ (convert_fields_to_questions fields).length = fields.length
    ∧ (∀ f ∈ fields, isFileField f = true →
        (convert_field_to_mcp_question f).qtype = some "FILE_UPLOAD")
    ∧ ((node_convert_fields fields).map GFNodeCreateItem.locationIndex
        = List.range fields.length) := by
  obtain ⟨h1, h2, h3⟩ := buildQuestionRequests_spec fields 0 0 (le_refl 0)
  refine ⟨h2, h3, ?_, ?_, ?_, ?_⟩
  · rw [List.range_eq_range']
    simpa using h1
  · simp [convert_fields_to_questions]
  · intro f _ hf
    exact convert_field_to_mcp_question_file f hf
  · simp only [node_convert_fields, List.map_map]
    have : (GFNodeCreateItem.locationIndex ∘ fun p : Nat × FormField =>
        node_convert_field_to_question p.2 p.1) = Prod.fst := by
      funext p
      exact node_convert_field_to_question_index p.2 p.1
    rw [this, List.enum_map_fst]

lemma upsertPoint_count_self (pts : List QdrantPoint) (p : QdrantPoint)
    (hn : qdrantCountFor pts p.id ≤ 1) :
    qdrantCountFor (upsertPoint pts p) p.id = 1 := by
  unfold upsertPoint qdrantCountFor at *
  by_cases h : (pts.any (fun q => q.id = p.id)) = true
  · rw [if_pos h]
    have hmapfilter : (pts.map (fun q => if q.id = p.id then p else q)).filter
        (fun q => q.id == p.id) = (pts.filter (fun q => q.id == p.id)).map
        (fun q => if q.id = p.id then p else q) := by
      rw [List.filter_map]
      congr 1
      apply List.filter_congr
      intro q _
      by_cases hq : q.id = p.id <;> simp [hq]
    rw [hmapfilter, List.length_map]
    have hpos : 0 < (pts.filter (fun q => q.id == p.id)).length := by
      rw [List.any_eq_true] at h
      obtain ⟨q, hq, hqe⟩ := h
      have : q ∈ pts.filter (fun q => q.id == p.id) := by
        rw [List.mem_filter]
        exact ⟨hq, by simpa using hqe⟩
      exact List.length_pos.mpr (List.ne_nil_of_mem this)
    omega
  · rw [if_neg h]
    rw [List.filter_append]
    have hempty : pts.filter (fun q => q.id == p.id) = [] := by
      rw [List.filter_eq_nil_iff]
      intro q hq
      intro hcontra
      exact absurd (List.any_eq_true.mpr ⟨q, hq, by simpa using hcontra⟩) h
    rw [hempty]
    simp

lemma upsertPoint_mem_self (pts : List QdrantPoint) (p : QdrantPoint) :
    ∀ q ∈ upsertPoint pts p, q.id = p.id → q = p := by
  unfold upsertPoint
  by_cases h : (pts.any (fun q => q.id = p.id)) = true
  · rw [if_pos h]
    intro q hq hqe
    rw [List.mem_map] at hq
    obtain ⟨orig, _, horig⟩ := hq
    by_cases ho : orig.id = p.id
    · rw [← horig]; simp [ho]
    · rw [← horig] at hqe
      simp only [ho, if_false] at hqe
  · rw [if_neg h]
    intro q hq hqe
    rcases List.mem_append.mp hq with hmem | hmem
    · exact absurd (List.any_eq_true.mpr ⟨q, hmem, by simpa using hqe⟩) h
    · simpa using hmem

/-- C8: Retrieval-index upsert is keyed by conversation id: two successive
store_embedding calls for the same conversation id (well-dimensioned
vectors, distinct or not) leave exactly one point for that id, and that
point carries the vector of the second call with the second call's snapshot
wrapped in the stored payload. -/
theorem c8_upsert_keyed_by_conversation (points : List QdrantPoint) (cid : String)
    (v1 v2 : List Int) (p1 p2 : List (Str × Json)) (st1 st2 : List QdrantPoint)
    (hn : qdrantCountFor points cid ≤ 1)
    (hv1 : v1.length = qdrantVectorSize) (hv2 : v2.length = qdrantVectorSize)
    (hdiff : v1 ≠ v2)
    (hs1 : store_embedding points cid v1 p1 = some st1)
    (hs2 : store_embedding st1 cid v2 p2 = some st2) :
    qdrantCountFor st2 cid = 1
    ∧ ∀ p ∈ st2, p.id = cid →
        (p.vector = v2 ∧ p.payload.form_snapshot = p2
          ∧ p.payload.conversation_id = cid ∧ p.payload.snapshot_type = "form_schema") := by
  unfold store_embedding at hs1 hs2
  rw [hv1] at hs1
  rw [hv2] at hs2
  simp only [ne_eq, not_true_eq_false, if_false, Option.some.injEq] at hs1 hs2
  have hst1 : qdrantCountFor st1 cid = 1 := by
    rw [← hs1]
    exact upsertPoint_count_self points _ hn
  constructor
  · rw [← hs2]
    exact upsertPoint_count_self st1 _ (by rw [hst1])
  · intro p hp hpe
    have := upsertPoint_mem_self st1 _ p (by rw [← hs2] at hp; exact hp) hpe
    rw [this]
    exact ⟨rfl, rfl, rfl, rfl⟩

/-- C8 witness: the theorem applied to the empty index, two constant vectors
of the configured dimension and two tiny snapshots. -/
theorem c8_upsert_keyed_by_conversation_witness :
    (qdrantCountFor [] "conv-1" ≤ 1
      ∧ (List.replicate 1536 (0 : Int)).length = qdrantVectorSize
      ∧ (List.replicate 1536 (1 : Int)).length = qdrantVectorSize
      ∧ List.replicate 1536 (0 : Int) ≠ List.replicate 1536 (1 : Int))
    ∧ (qdrantCountFor
        (upsertPoint (upsertPoint []
          { id := "conv-1", vector := List.replicate 1536 (0 : Int),
            payload := { conversation_id := "conv-1", form_snapshot := [],
                         snapshot_type := "form_schema" } })
          { id := "conv-1", vector := List.replicate 1536 (1 : Int),
            payload := { conversation_id := "conv-1",
                         form_snapshot := [("a".data, Json.num 7)],
                         snapshot_type := "form_schema" } }) "conv-1" = 1
      ∧ ∀ p ∈ (upsertPoint (upsertPoint []
          { id := "conv-1", vector := List.replicate 1536 (0 : Int),
            payload := { conversation_id := "conv-1", form_snapshot := [],
                         snapshot_type := "form_schema" } })
          { id := "conv-1", vector := List.replicate 1536 (1 : Int),
            payload := { conversation_id := "conv-1",
                         form_snapshot := [("a".data, Json.num 7)],
                         snapshot_type := "form_schema" } }), p.id = "conv-1" →
          (p.vector = List.replicate 1536 (1 : Int)
            ∧ p.payload.form_snapshot = [("a".data, Json.num 7)]
            ∧ p.payload.conversation_id = "conv-1"
            ∧ p.payload.snapshot_type = "form_schema")) := by
  have hv1 : (List.replicate 1536 (0 : Int)).length = qdrantVectorSize :=
    List.length_replicate 1536 0
  have hv2 : (List.replicate 1536 (1 : Int)).length = qdrantVectorSize :=
    List.length_replicate 1536 1
  have hdiff : List.replicate 1536 (0 : Int) ≠ List.replicate 1536 (1 : Int) := by
    intro h
    have h2 := congrArg List.head? h
    rw [List.head?_replicate, List.head?_replicate] at h2
    simp at h2
  have hs1 : store_embedding [] "conv-1" (List.replicate 1536 (0 : Int)) [] =
      some (upsertPoint []
        { id := "conv-1", vector := List.replicate 1536 (0 : Int),
          payload := { conversation_id := "conv-1", form_snapshot := [],
                       snapshot_type := "form_schema" } }) := by
    unfold store_embedding
    rw [hv1, if_neg (by simp)]
  have hs2 : store_embedding (upsertPoint []
        { id := "conv-1", vector := List.replicate 1536 (0 : Int),
          payload := { conversation_id := "conv-1", form_snapshot := [],
                       snapshot_type := "form_schema" } }) "conv-1"
        (List.replicate 1536 (1 : Int)) [("a".data, Json.num 7)] =
      some (upsertPoint (upsertPoint []
        { id := "conv-1", vector := List.replicate 1536 (0 : Int),
          payload := { conversation_id := "conv-1", form_snapshot := [],
                       snapshot_type := "form_schema" } })
        { id := "conv-1", vector := List.replicate 1536 (1 : Int),
          payload := { conversation_id := "conv-1",
                       form_snapshot := [("a".data, Json.num 7)],
                       snapshot_type := "form_schema" } }) := by
    unfold store_embedding
    rw [hv2, if_neg (by simp)]
  exact ⟨⟨by simp [qdrantCountFor], hv1, hv2, hdiff⟩,
    c8_upsert_keyed_by_conversation [] "conv-1" _ _ [] [("a".data, Json.num 7)] _ _
      (by simp [qdrantCountFor]) hv1 hv2 hdiff hs1 hs2⟩

lemma find?_map_if_eq {α : Type} (idOf : α → String) (l : List α) (k : String) (f : α → α)
    (hid : ∀ x, idOf (f x) = idOf x) :
    (l.map (fun x => if idOf x = k then f x else x)).find? (fun x => idOf x == k)
      = (l.find? (fun x => idOf x == k)).map f := by
  induction l with
  | nil => rfl
  | cons c rest ih =>
    by_cases h : idOf c = k
    · simp [List.find?_cons, h, hid]
    · simp only [List.map_cons, List.find?_cons, h, if_false]
      have hb : (idOf c == k) = false := by simpa using h
      rw [hb]
      simpa using ih

lemma find?_map_if_ne {α : Type} (idOf : α → String) (l : List α) (k k' : String) (f : α → α)
    (hid : ∀ x, idOf (f x) = idOf x) (h : k' ≠ k) :
    (l.map (fun x => if idOf x = k then f x else x)).find? (fun x => idOf x == k')
      = l.find? (fun x => idOf x == k') := by
  induction l with
  | nil => rfl
  | cons c rest ih =>
    simp only [List.map_cons, List.find?_cons]
    by_cases hc : idOf c = k
    · rw [if_pos hc]
      have h1 : (idOf (f c) == k') = false := by
        rw [hid, hc]
        simpa using Ne.symm h
      have h2 : (idOf c == k') = false := by
        rw [hc]
        simpa using Ne.symm h
      rw [h1, h2]
      exact ih
    · rw [if_neg hc]
      cases h2 : (idOf c == k') with
      | true => rfl
      | false => exact ih

lemma getConv_updateConvRow (db : DB) (cid : String) (f : ConversationRow → ConversationRow)
    (hid : ∀ c, (f c).id = c.id) :
    getConv (updateConvRow db cid f) cid = (getConv db cid).map f :=
  find?_map_if_eq ConversationRow.id db.conversations cid f hid

lemma getConv_updateConvRow_ne (db : DB) (cid cid' : String)
    (f : ConversationRow → ConversationRow)
    (hid : ∀ c, (f c).id = c.id) (h : cid' ≠ cid) :
    getConv (updateConvRow db cid f) cid' = getConv db cid' :=
  find?_map_if_ne ConversationRow.id db.conversations cid cid' f hid h

lemma getTask_updateTaskRow (db : DB) (tid : String) (f : AgentTaskRow → AgentTaskRow)
    (hid : ∀ t, (f t).id = t.id) :
    getTask (updateTaskRow db tid f) tid = (getTask db tid).map f :=
  find?_map_if_eq AgentTaskRow.id db.agent_tasks tid f hid

lemma getTask_updateTaskRow_ne (db : DB) (tid tid' : String) (f : AgentTaskRow → AgentTaskRow)
    (hid : ∀ t, (f t).id = t.id) (h : tid' ≠ tid) :
    getTask (updateTaskRow db tid f) tid' = getTask db tid' :=
  find?_map_if_ne AgentTaskRow.id db.agent_tasks tid tid' f hid h

/-- C3: in the Generation Stage, when extraction of the raw LLM output fails
and the single repair attempt yields text whose extraction also fails, the
node makes exactly one repair re-prompt (repairCalls = 1), exactly one retry
of extraction (extractCalls = 2, the initial attempt plus one retry), returns
the invalid_json error carrying the original raw output, and leaves both the
storage and the retrieval index untouched (no snapshot is persisted). -/
theorem c3_json_repair_once_then_invalid_json (o : PlannerOracle) (cid : String)
    (db : DB) (qd : List QdrantPoint) (raw rep : Str)
    (hgen : o.generate = ExtCall.ok raw)
    (hne : raw.isEmpty = false)
    (hfail : extract_json raw = none)
    (hrep : o.generateRepair = ExtCall.ok rep)
    (hfail2 : extract_json rep = none) :
    llm_inference_node o cid db qd =
      (db, qd, { error := some "invalid_json", details := none, raw_output := some raw,
                 llm_output := none, repairCalls := 1, extractCalls := 2 }) := by
  unfold llm_inference_node
  rw [hgen]
  simp only [hne, Bool.false_eq_true, if_false, hfail, hrep, hfail2]

/-- C3 witness: the theorem applied to a concrete oracle whose generation
and repair outputs both fail extraction, over the fixture storage. -/
theorem c3_json_repair_once_then_invalid_json_witness :
    (({ generate := ExtCall.ok ("oops".data), generateRepair := ExtCall.ok ("still bad".data),
        embed := ExtCall.exn "down", qdrantStoreFails := false } : PlannerOracle).generate
          = ExtCall.ok ("oops".data)
      ∧ ("oops".data).isEmpty = false
      ∧ extract_json ("oops".data) = none
      ∧ extract_json ("still bad".data) = none)
    ∧ llm_inference_node
        { generate := ExtCall.ok ("oops".data), generateRepair := ExtCall.ok ("still bad".data),
          embed := ExtCall.exn "down", qdrantStoreFails := false } "c1" db0 [] =
        (db0, [], { error := some "invalid_json", details := none,
                    raw_output := some ("oops".data), llm_output := none,
                    repairCalls := 1, extractCalls := 2 }) :=
  ⟨⟨rfl, rfl, rfl, rfl⟩,
    c3_json_repair_once_then_invalid_json _ "c1" db0 [] ("oops".data) ("still bad".data)
      rfl rfl rfl rfl rfl⟩

/-- C7: once extraction has succeeded and the conversation exists, the
Generation Stage persists the snapshot and then, whatever the embedding call
or the index upsert do (exception, dimension mismatch, failing store), still
returns the parsed snapshot with a null error; the persisted snapshot is the
parsed object and is unaffected by those failures, and on each failing
branch the retrieval index is left untouched. -/
theorem c7_embedding_failures_swallowed (o : PlannerOracle) (cid : String) (db : DB)
    (qd : List QdrantPoint) (raw : Str) (parsed : List (Str × Json)) (conv : ConversationRow)
    (hgen : o.generate = ExtCall.ok raw)
    (hne : raw.isEmpty = false)
    (hok : extract_json raw = some parsed)
    (hconv : getConv db cid = some conv) :
    ((llm_inference_node o cid db qd).1
        = updateConvRow db cid (fun c => { c with form_snapshot := some parsed }))
    ∧ (llm_inference_node o cid db qd).2.2.error = none
    ∧ (llm_inference_node o cid db qd).2.2.llm_output = some parsed
    ∧ getConv (llm_inference_node o cid db qd).1 cid
        = some { conv with form_snapshot := some parsed }
    ∧ (∀ e, o.embed = ExtCall.exn e → (llm_inference_node o cid db qd).2.1 = qd)
    ∧ (∀ v, o.embed = ExtCall.ok v → v.length ≠ qdrantVectorSize →
        (llm_inference_node o cid db qd).2.1 = qd)
    ∧ (o.qdrantStoreFails = true → (llm_inference_node o cid db qd).2.1 = qd) := by
  have hnode : llm_inference_node o cid db qd
      = llmInferencePersistAndIndex o cid parsed 0 1 db qd := by
    unfold llm_inference_node
    rw [hgen]
    simp only [hne, Bool.false_eq_true, if_false, hok]
  rw [hnode]
  unfold llmInferencePersistAndIndex
  rw [hconv]
  have hupd : getConv (updateConvRow db cid
      (fun c => { c with form_snapshot := some parsed })) cid
      = some { conv with form_snapshot := some parsed } := by
    rw [getConv_updateConvRow db cid
          (fun c => { c with form_snapshot := some parsed }) (fun c => rfl), hconv]
    rfl
  refine ⟨rfl, rfl, rfl, hupd, ?_, ?_, ?_⟩
  · intro e he
    rw [he]
  · intro v hv hlen
    rw [hv]
    simp only [hlen, ne_eq, not_false_eq_true, if_true, if_false]
    by_cases hv0 : v.isEmpty <;> simp [hv0]
  · intro hq
    cases hemb : o.embed with
    | exn e => rfl
    | ok v =>
      by_cases hv0 : v.isEmpty
      · simp [hv0]
      · by_cases hlen : v.length ≠ qdrantVectorSize
        · simp [hv0, hlen]
        · simp [hv0, hlen, hq]

/-- C7 witness: the theorem applied to a concrete oracle whose generation
succeeds with a parseable object but whose embedding call raises, over the
fixture storage. -/
theorem c7_embedding_failures_swallowed_witness :
    (({ generate := ExtCall.ok ("\x7b\"a\": 1\x7d".data),
        generateRepair := ExtCall.exn "unused",
        embed := ExtCall.exn "down", qdrantStoreFails := false } : PlannerOracle).generate
          = ExtCall.ok ("\x7b\"a\": 1\x7d".data)
      ∧ ("\x7b\"a\": 1\x7d".data).isEmpty = false
      ∧ extract_json ("\x7b\"a\": 1\x7d".data) = some [("a".data, Json.num 1)]
      ∧ getConv db0 "c1" = some conv0)
    ∧ ((llm_inference_node
          { generate := ExtCall.ok ("\x7b\"a\": 1\x7d".data),
            generateRepair := ExtCall.exn "unused",
            embed := ExtCall.exn "down", qdrantStoreFails := false } "c1" db0 []).2.2.error = none
      ∧ getConv (llm_inference_node
          { generate := ExtCall.ok ("\x7b\"a\": 1\x7d".data),
            generateRepair := ExtCall.exn "unused",
            embed := ExtCall.exn "down", qdrantStoreFails := false } "c1" db0 []).1 "c1"
          = some { conv0 with form_snapshot := some [("a".data, Json.num 1)] }
      ∧ (llm_inference_node
          { generate := ExtCall.ok ("\x7b\"a\": 1\x7d".data),
            generateRepair := ExtCall.exn "unused",
            embed := ExtCall.exn "down", qdrantStoreFails := false } "c1" db0 []).2.1 = []) := by
  have h := c7_embedding_failures_swallowed
    { generate := ExtCall.ok ("\x7b\"a\": 1\x7d".data),
      generateRepair := ExtCall.exn "unused",
      embed := ExtCall.exn "down", qdrantStoreFails := false } "c1" db0 []
    ("\x7b\"a\": 1\x7d".data) [("a".data, Json.num 1)] conv0 rfl rfl rfl rfl
  exact ⟨⟨rfl, rfl, rfl, rfl⟩, h.2.1, h.2.2.2.1, h.2.2.2.2.1 "down" rfl⟩

lemma execute_forms_mcp_node_create_path (m : McpOutcome) (st : ExecutorState) (db : DB)
    (c : String) (conv : ConversationRow) (kvs : List (Str × Json))
    (hcid : st.conversation_id = some c) (hc : (c == "") = false)
    (hsnap : st.form_snapshot = some kvs) (hne : kvs.isEmpty = false)
    (hat : pyTruthy st.access_token = true) (hrt : pyTruthy st.refresh_token = true)
    (hff : formsFor db c = []) (hconv : getConv db c = some conv) (hok : m.ok = true) :
    execute_forms_mcp_node m db st =
      ({ db with forms := db.forms ++
          [{ google_form_id := m.newFormId, user_id := conv.user_id,
             conversation_id := c, form_url := m.newFormUrl }] },
       { st with form_id := some m.newFormId, form_url := some m.newFormUrl,
                 status := "completed" }) := by
  unfold execute_forms_mcp_node
  rw [hsnap, hcid]
  simp only [pyTruthySnap, hne, Bool.not_false, Bool.not_true, Bool.false_eq_true, if_false,
    hat, hrt, Bool.or_self, hc, hff, scalar_one_or_none, hok, hconv]

lemma execute_forms_mcp_node_update_path (m : McpOutcome) (st : ExecutorState) (db : DB)
    (c : String) (f : FormRow) (kvs : List (Str × Json))
    (hcid : st.conversation_id = some c) (hc : (c == "") = false)
    (hsnap : st.form_snapshot = some kvs) (hne : kvs.isEmpty = false)
    (hat : pyTruthy st.access_token = true) (hrt : pyTruthy st.refresh_token = true)
    (hff : formsFor db c = [f]) (hok : m.ok = true) :
    execute_forms_mcp_node m db st =
      (db, { st with form_id := some f.google_form_id, form_url := some f.form_url,
                     status := "completed" }) := by
  unfold execute_forms_mcp_node
  rw [hsnap, hcid]
  simp only [pyTruthySnap, hne, Bool.not_false, Bool.not_true, Bool.false_eq_true, if_false,
    hat, hrt, Bool.or_self, hc, hff, scalar_one_or_none, hok, if_true]

lemma execute_forms_mcp_node_forms_shape (m : McpOutcome) (st : ExecutorState) (db : DB) :
    (execute_forms_mcp_node m db st).1.forms = db.forms
    ∨ ∃ cid conv, st.conversation_id = some cid ∧ (cid == "") = false
        ∧ formsFor db cid = [] ∧ getConv db cid = some conv
        ∧ (execute_forms_mcp_node m db st).1.forms
            = db.forms ++ [{ google_form_id := m.newFormId, user_id := conv.user_id,
                             conversation_id := cid, form_url := m.newFormUrl }] := by
  unfold execute_forms_mcp_node
  cases hsnap : st.form_snapshot with
  | none => left; rfl
  | some kvs =>
    by_cases hemp0 : kvs.isEmpty = true
    · left
      simp [pyTruthySnap, hemp0]
    · rw [Bool.not_eq_true] at hemp0
      by_cases hcred : (!pyTruthy st.access_token || !pyTruthy st.refresh_token) = true
      · left
        simp only [pyTruthySnap, hemp0, Bool.not_false, Bool.not_true, Bool.false_eq_true,
          if_false, hcred, if_true]
      · simp only [pyTruthySnap, hemp0, Bool.not_false, Bool.not_true, Bool.false_eq_true,
          if_false, Bool.not_eq_true] at hcred ⊢
        rw [hcred]
        simp only [Bool.false_eq_true, if_false]
        cases hcid : st.conversation_id with
        | none =>
          by_cases hok : m.ok = true <;> simp [hok]
        | some cid =>
          by_cases hemp : (cid == "") = true
          · simp only [hemp, if_true]
            by_cases hok : m.ok = true <;> simp [hok, hemp]
          · rw [Bool.not_eq_true] at hemp
            simp only [hemp, Bool.false_eq_true, if_false]
            cases hff : formsFor db cid with
            | nil =>
              simp only [scalar_one_or_none]
              by_cases hok : m.ok = true
              · simp only [hok, Bool.not_true, Bool.false_eq_true, if_false, hemp]
                cases hconv : getConv db cid with
                | none => left; rfl
                | some conv =>
                  right
                  exact ⟨cid, conv, rfl, hemp, hff, hconv, rfl⟩
              · rw [Bool.not_eq_true] at hok
                simp only [hok, Bool.not_false, if_true]
                left; trivial
            | cons f rest =>
              cases rest with
              | nil =>
                simp only [scalar_one_or_none]
                by_cases hok : m.ok = true <;> simp [hok]
              | cons f2 r2 =>
                simp only [scalar_one_or_none]
                left; trivial

lemma countFormsFor_step (m : McpOutcome) (st : ExecutorState) (db : DB) (c : String)
    (h : countFormsFor db c ≤ 1) :
    countFormsFor (execute_forms_mcp_node m db st).1 c ≤ 1 := by
  rcases execute_forms_mcp_node_forms_shape m st db with hsame | ⟨cid, conv, _, _, hff, _, happ⟩
  · unfold countFormsFor formsFor at *
    rw [hsame]
    exact h
  · unfold countFormsFor formsFor at *
    rw [happ, List.filter_append]
    by_cases hcc : (cid == c) = true
    · have : cid = c := by simpa using hcc
      rw [← this] at h ⊢
      rw [hff] at h ⊢
      simp
    · have hcc' : ¬ (cid = c) := by simpa using hcc
      simp only [List.filter_cons, List.filter_nil]
      simp [hcc']
      simpa using h

lemma runMaterializationSeq_count (invs : List (McpOutcome × ExecutorState)) :
    ∀ (db : DB) (c : String), countFormsFor db c ≤ 1 →
      countFormsFor (runMaterializationSeq db invs) c ≤ 1 := by
  induction invs with
  | nil => intro db c h; exact h
  | cons p rest ih =>
    intro db c h
    exact ih _ c (countFormsFor_step p.1 p.2 db c h)

/-- C2: at most one PublishedForm row per conversation.  First conjunct: the
at-most-one invariant is preserved by any sequence of Materialization Stage
invocations.  Second conjunct: with no row present, the conversation stored,
a truthy (nonempty) snapshot dict and both credentials, a successful
invocation creates exactly one row carrying the new external form id.  Third
conjunct: with exactly one row present and the same gates passed, an
invocation leaves the storage unchanged and, when the external update
succeeds, completes with the stored row's external form id and url (updated
in place, no second row and no second external form).  Fourth conjunct: a
missing or empty (falsy) snapshot dict fails with missing_form_snapshot and
leaves the storage untouched. -/
theorem c2_at_most_one_published_form :
    (∀ (db : DB) (invs : List (McpOutcome × ExecutorState)) (c : String),
        countFormsFor db c ≤ 1 →
        countFormsFor (runMaterializationSeq db invs) c ≤ 1)
    ∧ (∀ (m : McpOutcome) (st : ExecutorState) (db : DB) (c : String)
          (conv : ConversationRow) (kvs : List (Str × Json)),
        st.conversation_id = some c → (c == "") = false → st.form_snapshot = some kvs →
        kvs.isEmpty = false →
        pyTruthy st.access_token = true → pyTruthy st.refresh_token = true →
        formsFor db c = [] → getConv db c = some conv → m.ok = true →
        formsFor (execute_forms_mcp_node m db st).1 c
            = [{ google_form_id := m.newFormId, user_id := conv.user_id,
                 conversation_id := c, form_url := m.newFormUrl }]
        ∧ (execute_forms_mcp_node m db st).2.status = "completed"
        ∧ (execute_forms_mcp_node m db st).2.form_id = some m.newFormId)
    ∧ (∀ (m : McpOutcome) (st : ExecutorState) (db : DB) (c : String) (f : FormRow)
          (kvs : List (Str × Json)),
        st.conversation_id = some c → (c == "") = false → st.form_snapshot = some kvs →
        kvs.isEmpty = false →
        pyTruthy st.access_token = true → pyTruthy st.refresh_token = true →
        formsFor db c = [f] → m.ok = true →
        (execute_forms_mcp_node m db st).1 = db
        ∧ (execute_forms_mcp_node m db st).2.form_id = some f.google_form_id
        ∧ (execute_forms_mcp_node m db st).2.form_url = some f.form_url
        ∧ (execute_forms_mcp_node m db st).2.status = "completed")
    ∧ (∀ (m : McpOutcome) (st : ExecutorState) (db : DB),
        (st.form_snapshot = none ∨ st.form_snapshot = some []) →
        execute_forms_mcp_node m db st
          = (db, { st with status := "failed",
                           error := some "missing_form_snapshot" })) := by
  refine ⟨?_, ?_, ?_, ?_⟩
  · intro db invs c h
    exact runMaterializationSeq_count invs db c h
  · intro m st db c conv kvs hcid hc hsnap hne hat hrt hff hconv hok
    rw [execute_forms_mcp_node_create_path m st db c conv kvs hcid hc hsnap hne hat hrt hff
      hconv hok]
    refine ⟨?_, rfl, rfl⟩
    unfold formsFor at *
    simp only [List.filter_append, hff]
    simp [List.filter_cons]
  · intro m st db c f kvs hcid hc hsnap hne hat hrt hff hok
    rw [execute_forms_mcp_node_update_path m st db c f kvs hcid hc hsnap hne hat hrt hff hok]
    exact ⟨rfl, rfl, rfl, rfl⟩
  · intro m st db h
    rcases h with h | h <;> simp [execute_forms_mcp_node, h, pyTruthySnap]

/-- C2 witness: the theorem applied to the fixture conversation with an
empty forms table, a create invocation followed by a second invocation, the
single-step create facts at those inputs, and the falsy-snapshot gate at the
empty snapshot dict. -/
theorem c2_at_most_one_published_form_witness :
    (countFormsFor db0 "c1" ≤ 1
      ∧ stA.conversation_id = some "c1"
      ∧ ("c1" == "") = false
      ∧ stA.form_snapshot = some [(['t'], Json.null)]
      ∧ ([(['t'], Json.null)] : List (Str × Json)).isEmpty = false
      ∧ pyTruthy stA.access_token = true
      ∧ formsFor db0 "c1" = []
      ∧ getConv db0 "c1" = some conv0
      ∧ mcpA.ok = true)
    ∧ countFormsFor (runMaterializationSeq db0 [(mcpA, stA), (mcpB, stA)]) "c1" ≤ 1
    ∧ formsFor (execute_forms_mcp_node mcpA db0 stA).1 "c1"
        = [{ google_form_id := "g1", user_id := "u1", conversation_id := "c1",
             form_url := "u1" }]
    ∧ (execute_forms_mcp_node mcpA db0 stA).2.status = "completed"
    ∧ (execute_forms_mcp_node mcpA db0 stA).2.form_id = some "g1"
    ∧ execute_forms_mcp_node mcpA db0 { stA with form_snapshot := some [] }
        = (db0, { stA with form_snapshot := some [], status := "failed",
                           error := some "missing_form_snapshot" }) := by
  have h := c2_at_most_one_published_form
  have hcreate := h.2.1 mcpA stA db0 "c1" conv0 [(['t'], Json.null)]
    rfl rfl rfl rfl rfl rfl rfl rfl rfl
  exact ⟨⟨by decide, rfl, rfl, rfl, rfl, rfl, rfl, rfl, rfl⟩,
    h.1 db0 [(mcpA, stA), (mcpB, stA)] "c1" (by decide),
    hcreate.1, hcreate.2.1, hcreate.2.2,
    h.2.2.2 mcpA { stA with form_snapshot := some [] } db0 (Or.inr rfl)⟩

lemma mem_map_update_id {α : Type} (idOf : α → String) (l : List α) (k : String) (f : α → α)
    (hid : ∀ x, idOf (f x) = idOf x) :
    ∀ y ∈ l.map (fun x => if idOf x = k then f x else x), idOf y = k →
      ∃ x ∈ l, idOf x = k ∧ y = f x := by
  intro y hy hyk
  rw [List.mem_map] at hy
  obtain ⟨x, hx, hmap⟩ := hy
  by_cases h : idOf x = k
  · refine ⟨x, hx, h, ?_⟩
    rw [← hmap]
    simp [h]
  · rw [← hmap] at hyk
    simp only [h, if_false] at hyk

lemma sendResponseWrites_tasks (newTaskId : String) (now : Nat) (st : ExecutorState)
    (db : DB) (tid : String) (htid : st.task_id = some tid) (hne : (tid == "") = false) :
    (sendResponseWrites newTaskId now st db).agent_tasks
      = updateTasks db.agent_tasks tid
          (fun t => { t with status := st.status, completed_at := some now })
        ++ (if st.status == "completed" then [formCreatedTask newTaskId st now]
            else if st.status == "failed" then [formCreationFailedTask newTaskId st now]
            else []) := by
  unfold sendResponseWrites updateTaskRow updateConvRow
  cases hcid : st.conversation_id with
  | none =>
    by_cases h1 : (st.status == "completed") = true
    · simp [htid, hne, h1]
    · by_cases h3 : (st.status == "failed") = true
      · simp [htid, hne, h1, h3]
      · simp [htid, hne, h1, h3]
  | some cid =>
    by_cases h1 : (st.status == "completed") = true
    · by_cases hcemp : (cid == "") = true
      · simp [htid, hne, h1, hcemp]
      · by_cases hurl : pyTruthy st.form_url = true
        · simp [htid, hne, h1, hcemp, hurl]
        · simp [htid, hne, h1, hcemp, hurl]
    · by_cases h3 : (st.status == "failed") = true
      · simp [htid, hne, h1, h3]
      · simp [htid, hne, h1, h3]

lemma sendResponseWrites_convs_success (newTaskId : String) (now : Nat) (st : ExecutorState)
    (db : DB) (cid : String)
    (hst : (st.status == "completed") = true)
    (hcid : st.conversation_id = some cid) (hcemp : (cid == "") = false)
    (hurl : pyTruthy st.form_url = true) :
    (sendResponseWrites newTaskId now st db).conversations
      = db.conversations.map (fun c => if c.id = cid then
          { c with executor_state := some (publishedStamp st now) } else c) := by
  unfold sendResponseWrites updateTaskRow updateConvRow
  cases htid : st.task_id with
  | none => simp [hcid, hcemp, hurl, hst]
  | some tid =>
    by_cases hne : (tid == "") = true
    · simp [hcid, hcemp, hurl, hst, hne]
    · simp [hcid, hcemp, hurl, hst, hne]

lemma send_response_node_db (commitOk : Bool) (newTaskId : String) (now : Nat)
    (db : DB) (st : ExecutorState) :
    (send_response_node commitOk newTaskId now db st).1
      = if commitOk then sendResponseWrites newTaskId now st db else db := by
  cases commitOk with
  | false => rfl
  | true =>
    unfold send_response_node
    by_cases h : (st.status == "completed") = true <;> simp [h]

/-- C4: the Response Stage's three writes go through one transaction.  With
the notification task id fresh, (1) the returned storage is either untouched
or carries the full write set, and it is untouched whenever the commit fails;
(2) whenever the notification task is observable in the returned storage,
every row of the originating task already carries the updated status and
completed_at — a notification-without-task-update state is never observable;
(3) on the committed success path all three writes are present together:
originating task completed, form_created notification pending, and the
conversation stamped with the published executor-state. -/
theorem c4_response_stage_atomic (commitOk : Bool) (newTaskId : String) (now : Nat)
    (db : DB) (st : ExecutorState)
    (hfresh : ∀ t ∈ db.agent_tasks, t.id ≠ newTaskId) :
    ((send_response_node commitOk newTaskId now db st).1 = db
      ∨ (send_response_node commitOk newTaskId now db st).1
          = sendResponseWrites newTaskId now st db)
    ∧ (commitOk = false → (send_response_node commitOk newTaskId now db st).1 = db)
    ∧ (∀ tid, st.task_id = some tid → (tid == "") = false → tid ≠ newTaskId →
        (∃ t ∈ (send_response_node commitOk newTaskId now db st).1.agent_tasks,
            t.id = newTaskId) →
        ∀ t ∈ (send_response_node commitOk newTaskId now db st).1.agent_tasks, t.id = tid →
          t.status = st.status ∧ t.completed_at = some now)
    ∧ (commitOk = true → (st.status == "completed") = true →
        ∀ tid cid, st.task_id = some tid → (tid == "") = false → tid ≠ newTaskId →
          st.conversation_id = some cid → (cid == "") = false →
          pyTruthy st.form_url = true →
          (∀ t ∈ (send_response_node commitOk newTaskId now db st).1.agent_tasks,
              t.id = tid → t.status = st.status ∧ t.completed_at = some now)
          ∧ (∃ t ∈ (send_response_node commitOk newTaskId now db st).1.agent_tasks,
              t.id = newTaskId ∧ t.task_type = "form_created" ∧ t.status = "pending")
          ∧ (∀ c ∈ (send_response_node commitOk newTaskId now db st).1.conversations,
              c.id = cid → c.executor_state = some (publishedStamp st now))) := by
  have hdb := send_response_node_db commitOk newTaskId now db st
  have hupdated : ∀ (tid : String), st.task_id = some tid → (tid == "") = false →
      tid ≠ newTaskId →
      ∀ t ∈ (sendResponseWrites newTaskId now st db).agent_tasks, t.id = tid →
        t.status = st.status ∧ t.completed_at = some now := by
    intro tid htid hne hneq t ht hte
    rw [sendResponseWrites_tasks newTaskId now st db tid htid hne] at ht
    rcases List.mem_append.mp ht with hmem | hmem
    · obtain ⟨u, _, _, hu⟩ := mem_map_update_id AgentTaskRow.id db.agent_tasks tid
        (fun t => { t with status := st.status, completed_at := some now })
        (fun x => rfl) t hmem hte
      rw [hu]
      exact ⟨rfl, rfl⟩
    · by_cases h1 : (st.status == "completed") = true
      · simp only [h1, if_true, List.mem_singleton] at hmem
        rw [hmem] at hte
        exact absurd hte.symm hneq
      · by_cases h3 : (st.status == "failed") = true
        · simp only [h1, h3, Bool.false_eq_true, if_false, if_true,
            List.mem_singleton] at hmem
          rw [hmem] at hte
          exact absurd hte.symm hneq
        · simp only [h1, h3, Bool.false_eq_true, if_false, List.not_mem_nil] at hmem
  cases commitOk with
  | false =>
    simp only [Bool.false_eq_true, if_false] at hdb
    refine ⟨Or.inl hdb, fun _ => hdb, ?_, ?_⟩
    · intro tid htid hne hneq hex
      rw [hdb] at hex
      obtain ⟨t, ht, hte⟩ := hex
      exact absurd hte (hfresh t ht)
    · intro hcommit
      exact absurd hcommit (by simp)
  | true =>
    simp only [if_true] at hdb
    refine ⟨Or.inr hdb, fun h => by simp at h, ?_, ?_⟩
    · intro tid htid hne hneq _
      rw [hdb]
      exact hupdated tid htid hne hneq
    · intro _ hst tid cid htid hne hneq hcid hcemp hurl
      rw [hdb]
      refine ⟨hupdated tid htid hne hneq, ?_, ?_⟩
      · refine ⟨formCreatedTask newTaskId st now, ?_, rfl, rfl, rfl⟩
        rw [sendResponseWrites_tasks newTaskId now st db tid htid hne]
        apply List.mem_append_right
        simp [hst]
      · intro c hc hcide
        rw [sendResponseWrites_convs_success newTaskId now st db cid hst hcid hcemp hurl]
          at hc
        obtain ⟨x, _, _, hx⟩ := mem_map_update_id ConversationRow.id db.conversations cid
          (fun c => { c with executor_state := some (publishedStamp st now) })
          (fun x => rfl) c hc hcide
        rw [hx]

/-- C4 witness: the theorem applied on the committed success path over a
storage holding the originating task and the conversation. -/
theorem c4_response_stage_atomic_witness :
    (∀ t ∈ db1.agent_tasks, t.id ≠ "n1")
    ∧ ((send_response_node true "n1" 7 db1 stDone).1 = db1
        ∨ (send_response_node true "n1" 7 db1 stDone).1
            = sendResponseWrites "n1" 7 stDone db1)
    ∧ (∃ t ∈ (send_response_node true "n1" 7 db1 stDone).1.agent_tasks,
        t.id = "n1" ∧ t.task_type = "form_created" ∧ t.status = "pending")
    ∧ (∀ t ∈ (send_response_node true "n1" 7 db1 stDone).1.agent_tasks, t.id = "t1" →
        t.status = stDone.status ∧ t.completed_at = some 7)
    ∧ (∀ c ∈ (send_response_node true "n1" 7 db1 stDone).1.conversations, c.id = "c1" →
        c.executor_state = some (publishedStamp stDone 7)) := by
  have hfresh : ∀ t ∈ db1.agent_tasks, t.id ≠ "n1" := by decide
  have h := c4_response_stage_atomic true "n1" 7 db1 stDone hfresh
  have h4 := h.2.2.2 rfl rfl "t1" "c1" rfl rfl (by decide) rfl rfl rfl
  exact ⟨hfresh, h.1, h4.2.1, h4.1, h4.2.2⟩

lemma getTask_updateTaskRow_isSome (db : DB) (k : String) (f : AgentTaskRow → AgentTaskRow)
    (hid : ∀ t, (f t).id = t.id) (tid : String) :
    (getTask (updateTaskRow db k f) tid).isSome = (getTask db tid).isSome := by
  by_cases h : tid = k
  · subst h
    rw [getTask_updateTaskRow db tid f hid]
    cases getTask db tid <;> rfl
  · rw [getTask_updateTaskRow_ne db k tid f hid h]

lemma find?_id_of_mem (l : List AgentTaskRow) (hn : (l.map AgentTaskRow.id).Nodup)
    (t : AgentTaskRow) (ht : t ∈ l) :
    l.find? (fun x => x.id == t.id) = some t := by
  induction l with
  | nil => cases ht
  | cons a rest ih =>
    rcases List.mem_cons.mp ht with rfl | hrest
    · simp
    · have hne : (a.id == t.id) = false := by
        simp only [List.map_cons, List.nodup_cons] at hn
        have : t.id ∈ rest.map AgentTaskRow.id := List.mem_map_of_mem AgentTaskRow.id hrest
        simp only [beq_eq_false_iff_ne, ne_eq]
        intro hcontra
        exact hn.1 (hcontra ▸ this)
      rw [List.find?_cons_of_neg _ (by simp [hne])]
      exact ih (by simp only [List.map_cons, List.nodup_cons] at hn; exact hn.2) hrest

lemma runWorkerTasks_log (outcome : String → ProcOutcome) (now : Nat) :
    ∀ (ts : List AgentTaskRow) (db : DB),
      (∀ t ∈ ts, (getTask db t.id).isSome = true) →
      (runWorkerTasks outcome now ts db).2
        = ts.flatMap (fun t =>
            [WorkerEvent.claimCommit t.id,
             WorkerEvent.processTask t.id "processing",
             WorkerEvent.finalCommit t.id (workerFinalStatus (outcome t.id))]) := by
  intro ts
  induction ts with
  | nil => intro db _; rfl
  | cons t rest ih =>
    intro db hmem
    have hsome := hmem t (List.mem_cons_self t rest)
    obtain ⟨u, hu⟩ := Option.isSome_iff_exists.mp hsome
    have hstatus : ((getTask (updateTaskRow db t.id (claimUpdate now)) t.id).map
        AgentTaskRow.status).getD "" = "processing" := by
      rw [getTask_updateTaskRow db t.id (claimUpdate now) (fun v => rfl), hu]
      rfl
    have hrest : ∀ x ∈ rest, (getTask (updateTaskRow
        (updateTaskRow db t.id (claimUpdate now)) t.id
        (finishUpdate (workerFinalStatus (outcome t.id)) now)) x.id).isSome = true := by
      intro x hx
      rw [getTask_updateTaskRow_isSome _ t.id
            (finishUpdate (workerFinalStatus (outcome t.id)) now) (fun v => rfl) x.id,
          getTask_updateTaskRow_isSome _ t.id (claimUpdate now) (fun v => rfl) x.id]
      exact hmem x (List.mem_cons_of_mem t hx)
    show (WorkerEvent.claimCommit t.id ::
        WorkerEvent.processTask t.id _ ::
        WorkerEvent.finalCommit t.id _ :: (runWorkerTasks outcome now rest _).2) = _
    rw [hstatus, ih _ hrest]
    rfl

lemma runWorkerTasks_untouched (outcome : String → ProcOutcome) (now : Nat) :
    ∀ (ts : List AgentTaskRow) (db : DB) (tid : String),
      tid ∉ ts.map AgentTaskRow.id →
      getTask (runWorkerTasks outcome now ts db).1 tid = getTask db tid := by
  intro ts
  induction ts with
  | nil => intro db tid _; rfl
  | cons t rest ih =>
    intro db tid hnot
    simp only [List.map_cons, List.mem_cons, not_or] at hnot
    show getTask (runWorkerTasks outcome now rest _).1 tid = _
    rw [ih _ tid (by simpa using hnot.2),
        getTask_updateTaskRow_ne _ t.id tid
          (finishUpdate (workerFinalStatus (outcome t.id)) now) (fun v => rfl) hnot.1,
        getTask_updateTaskRow_ne _ t.id tid (claimUpdate now) (fun v => rfl) hnot.1]

lemma runWorkerTasks_final (outcome : String → ProcOutcome) (now : Nat) :
    ∀ (ts : List AgentTaskRow) (db : DB),
      (ts.map AgentTaskRow.id).Nodup →
      ∀ t ∈ ts, ∀ u, getTask db t.id = some u →
        getTask (runWorkerTasks outcome now ts db).1 t.id
          = some (finishUpdate (workerFinalStatus (outcome t.id)) now (claimUpdate now u)) := by
  intro ts
  induction ts with
  | nil => intro db _ t ht; cases ht
  | cons a rest ih =>
    intro db hn t ht u hu
    simp only [List.map_cons, List.nodup_cons] at hn
    rcases List.mem_cons.mp ht with rfl | hrest
    · show getTask (runWorkerTasks outcome now rest _).1 t.id = _
      rw [runWorkerTasks_untouched outcome now rest _ t.id hn.1,
          getTask_updateTaskRow _ t.id
            (finishUpdate (workerFinalStatus (outcome t.id)) now) (fun v => rfl),
          getTask_updateTaskRow _ t.id (claimUpdate now) (fun v => rfl), hu]
      rfl
    · have hne : t.id ≠ a.id := by
        intro hcontra
        exact hn.1 (hcontra ▸ List.mem_map_of_mem AgentTaskRow.id hrest)
      show getTask (runWorkerTasks outcome now rest _).1 t.id = _
      refine ih _ hn.2 t hrest u ?_
      rw [getTask_updateTaskRow_ne _ a.id t.id
            (finishUpdate (workerFinalStatus (outcome a.id)) now) (fun v => rfl) hne,
          getTask_updateTaskRow_ne _ a.id t.id (claimUpdate now) (fun v => rfl) hne]
      exact hu

lemma process_pending_spec (db : DB) (outcome : String → ProcOutcome) (now : Nat)
    (hids : (db.agent_tasks.map AgentTaskRow.id).Nodup) :
    ((process_pending_executor_tasks outcome now db).2
        = (pendingExecutorTasks db).flatMap (fun t =>
            [WorkerEvent.claimCommit t.id,
             WorkerEvent.processTask t.id "processing",
             WorkerEvent.finalCommit t.id (workerFinalStatus (outcome t.id))]))
    ∧ (∀ t ∈ db.agent_tasks.filter isPendingExecutorTask,
        getTask (process_pending_executor_tasks outcome now db).1 t.id
          = some (finishUpdate (workerFinalStatus (outcome t.id)) now
              (claimUpdate now t))) := by
  have hperm : (pendingExecutorTasks db).Perm
      (db.agent_tasks.filter isPendingExecutorTask) :=
    List.perm_insertionSort _ _
  have hsub : ∀ t ∈ pendingExecutorTasks db, t ∈ db.agent_tasks := by
    intro t ht
    exact (List.mem_filter.mp (hperm.subset ht)).1
  have hfind : ∀ t ∈ pendingExecutorTasks db, getTask db t.id = some t := by
    intro t ht
    exact find?_id_of_mem db.agent_tasks hids t (hsub t ht)
  have hnodup_filter : ((db.agent_tasks.filter isPendingExecutorTask).map
      AgentTaskRow.id).Nodup :=
    List.Nodup.sublist (List.Sublist.map AgentTaskRow.id
      (List.filter_sublist db.agent_tasks)) hids
  have hnodup_sorted : ((pendingExecutorTasks db).map AgentTaskRow.id).Nodup :=
    ((hperm.map AgentTaskRow.id).nodup_iff).mpr hnodup_filter
  constructor
  · apply runWorkerTasks_log outcome now (pendingExecutorTasks db) db
    intro t ht
    rw [hfind t ht]
    rfl
  · intro t ht
    have htmem : t ∈ pendingExecutorTasks db := hperm.mem_iff.mpr ht
    exact runWorkerTasks_final outcome now (pendingExecutorTasks db) db hnodup_sorted
      t htmem t (hfind t htmem)

/-- C5: one poll cycle processes the pending executor tasks sequentially in
ascending creation-time order: the event log is exactly the
claim/process/commit triples of the pending tasks sorted oldest first (a
permutation of the pending set, strictly ascending given distinct creation
timestamps), and every pending task — including every task other than one
whose processing raises — ends the cycle with its own final status:
completed on success and failed on a failure result or a raised exception,
so one task's exception never prevents the remaining tasks from being
processed. -/
theorem c5_poll_cycle_order_and_isolation (db : DB) (outcome : String → ProcOutcome)
    (now : Nat)
    (hids : (db.agent_tasks.map AgentTaskRow.id).Nodup)
    (hts : (db.agent_tasks.filter isPendingExecutorTask).Pairwise
        (fun a b => a.created_at ≠ b.created_at)) :
    ((process_pending_executor_tasks outcome now db).2
        = (pendingExecutorTasks db).flatMap (fun t =>
            [WorkerEvent.claimCommit t.id,
             WorkerEvent.processTask t.id "processing",
             WorkerEvent.finalCommit t.id (workerFinalStatus (outcome t.id))]))
    ∧ (pendingExecutorTasks db).Perm (db.agent_tasks.filter isPendingExecutorTask)
    ∧ (pendingExecutorTasks db).Pairwise (fun a b => a.created_at < b.created_at)
    ∧ (∀ t ∈ db.agent_tasks.filter isPendingExecutorTask,
        getTask (process_pending_executor_tasks outcome now db).1 t.id
          = some (finishUpdate (workerFinalStatus (outcome t.id)) now (claimUpdate now t)))
    ∧ (∀ t ∈ db.agent_tasks.filter isPendingExecutorTask,
        outcome t.id = ProcOutcome.exn →
        ∃ u, getTask (process_pending_executor_tasks outcome now db).1 t.id = some u
          ∧ u.status = "failed") := by
  obtain ⟨hlog, hfinal⟩ := process_pending_spec db outcome now hids
  have hperm : (pendingExecutorTasks db).Perm
      (db.agent_tasks.filter isPendingExecutorTask) :=
    List.perm_insertionSort _ _
  haveI : IsTotal AgentTaskRow (fun a b => a.created_at ≤ b.created_at) :=
    ⟨fun a b => Nat.le_total a.created_at b.created_at⟩
  haveI : IsTrans AgentTaskRow (fun a b => a.created_at ≤ b.created_at) :=
    ⟨fun a b c hab hbc => Nat.le_trans hab hbc⟩
  have hsorted : (pendingExecutorTasks db).Pairwise
      (fun a b => a.created_at ≤ b.created_at) :=
    List.sorted_insertionSort _ _
  have hne : (pendingExecutorTasks db).Pairwise
      (fun a b => a.created_at ≠ b.created_at) :=
    (hperm.pairwise_iff (fun h => Ne.symm h)).mpr hts
  refine ⟨hlog, hperm, ?_, hfinal, ?_⟩
  · exact (hsorted.and hne).imp (fun h => lt_of_le_of_ne h.1 h.2)
  · intro t ht hexn
    refine ⟨finishUpdate (workerFinalStatus (outcome t.id)) now (claimUpdate now t),
      hfinal t ht, ?_⟩
    rw [hexn]
    rfl

/-- C5 witness: the theorem applied to a two-task storage where the newer
task is listed first and the older task's processing raises; both hypotheses
are discharged by computation. -/
theorem c5_poll_cycle_order_and_isolation_witness :
    ((dbW.agent_tasks.map AgentTaskRow.id).Nodup
      ∧ (dbW.agent_tasks.filter isPendingExecutorTask).Pairwise
          (fun a b => a.created_at ≠ b.created_at))
    ∧ ((process_pending_executor_tasks outcomesW 9 dbW).2
        = [WorkerEvent.claimCommit "t2", WorkerEvent.processTask "t2" "processing",
           WorkerEvent.finalCommit "t2" "failed",
           WorkerEvent.claimCommit "t1", WorkerEvent.processTask "t1" "processing",
           WorkerEvent.finalCommit "t1" "completed"])
    ∧ (∃ u, getTask (process_pending_executor_tasks outcomesW 9 dbW).1 pend2.id = some u
        ∧ u.status = "failed")
    ∧ (getTask (process_pending_executor_tasks outcomesW 9 dbW).1 pend1.id
        = some (finishUpdate (workerFinalStatus (outcomesW pend1.id)) 9
            (claimUpdate 9 pend1))) := by
  have h := c5_poll_cycle_order_and_isolation dbW outcomesW 9 (by decide) (by decide)
  have hfilter : dbW.agent_tasks.filter isPendingExecutorTask = [pend1, pend2] := rfl
  refine ⟨⟨by decide, by decide⟩, h.1.trans (by decide), ?_, ?_⟩
  · exact h.2.2.2.2 pend2 (by rw [hfilter]; right; exact List.mem_cons_self pend2 [])
      (by decide)
  · exact h.2.2.2.1 pend1 (by rw [hfilter]; exact List.mem_cons_self pend1 [pend2])

/-- C6 (counterexample): a pending task whose processing raises ends the
poll cycle with status failed but with no error message recorded
(error_message stays null), so the claim's error-message clause fails on
process_pending_executor_tasks. -/
theorem c6_no_error_message_counterexample :
    (getTask (process_pending_executor_tasks outcomesW 9 dbW).1 "t2").map
        AgentTaskRow.status = some "failed"
    ∧ (getTask (process_pending_executor_tasks outcomesW 9 dbW).1 "t2").map
        AgentTaskRow.error_message = some none := by
  exact ⟨rfl, rfl⟩

/-- C6 (amended): every task the poller picks up is claimed by committing the
pending-to-processing transition with started_at stamped before its
processing call (the event log interleaves claimCommit, then processTask with
the row status already processing, then the final commit), and every such
task ends the cycle with completed_at set and status completed or failed —
a failing task (failure result or raised exception) is marked failed and is
never left pending — but the worker records no error message: the
error_message column is left unchanged. -/
theorem c6_claim_commit_and_failure_amended (db : DB) (outcome : String → ProcOutcome)
    (now : Nat)
    (hids : (db.agent_tasks.map AgentTaskRow.id).Nodup) :
    ((process_pending_executor_tasks outcome now db).2
        = (pendingExecutorTasks db).flatMap (fun t =>
            [WorkerEvent.claimCommit t.id,
             WorkerEvent.processTask t.id "processing",
             WorkerEvent.finalCommit t.id (workerFinalStatus (outcome t.id))]))
    ∧ (∀ t ∈ db.agent_tasks.filter isPendingExecutorTask,
        ∃ u, getTask (process_pending_executor_tasks outcome now db).1 t.id = some u
          ∧ u.started_at = some now
          ∧ u.completed_at = some now
          ∧ (u.status = "completed" ∨ u.status = "failed")
          ∧ (outcome t.id = ProcOutcome.exn → u.status = "failed")
          ∧ (outcome t.id = ProcOutcome.failure → u.status = "failed")
          ∧ u.error_message = t.error_message) := by
  obtain ⟨hlog, hfinal⟩ := process_pending_spec db outcome now hids
  refine ⟨hlog, ?_⟩
  intro t ht
  refine ⟨finishUpdate (workerFinalStatus (outcome t.id)) now (claimUpdate now t),
    hfinal t ht, rfl, rfl, ?_, ?_, ?_, rfl⟩
  · cases houtcome : outcome t.id
    · left; rfl
    · right; rfl
    · right; rfl
  · intro hexn; rw [hexn]; rfl
  · intro hfail; rw [hfail]; rfl

/-- C6 witness: the amended theorem applied to the two-task fixture where
the older task's processing raises. -/
theorem c6_claim_commit_and_failure_amended_witness :
    (dbW.agent_tasks.map AgentTaskRow.id).Nodup
    ∧ (∃ u, getTask (process_pending_executor_tasks outcomesW 9 dbW).1 "t2" = some u
        ∧ u.started_at = some 9
        ∧ u.completed_at = some 9
        ∧ (u.status = "completed" ∨ u.status = "failed")
        ∧ (outcomesW "t2" = ProcOutcome.exn → u.status = "failed")
        ∧ (outcomesW "t2" = ProcOutcome.failure → u.status = "failed")
        ∧ u.error_message = pend2.error_message) := by
  have h := c6_claim_commit_and_failure_amended dbW outcomesW 9 (by decide)
  refine ⟨by decide, ?_⟩
  exact h.2 pend2 (by
    rw [show dbW.agent_tasks.filter isPendingExecutorTask = [pend1, pend2] from rfl]
    right
    exact List.mem_cons_self pend2 [])

lemma a2a_sender_node_conversations (newTaskId : String) (commitOk : Bool)
    (conversation_id : String) (out : Option (List (Str × Json))) (now : Nat) (db : DB) :
    (a2a_sender_node newTaskId commitOk conversation_id out now db).1.conversations
      = db.conversations := by
  unfold a2a_sender_node
  cases out with
  | none => rfl
  | some kvs => cases commitOk <;> rfl

lemma llm_inference_node_conversations (o : PlannerOracle) (cid : String) (db : DB)
    (qd : List QdrantPoint) :
    (llm_inference_node o cid db qd).1.conversations = db.conversations
    ∨ ∃ parsed, (llm_inference_node o cid db qd).1.conversations
        = db.conversations.map (fun c =>
            if c.id = cid then { c with form_snapshot := some parsed } else c) := by
  have hpersist : ∀ parsed rc ec,
      (llmInferencePersistAndIndex o cid parsed rc ec db qd).1.conversations
          = db.conversations
      ∨ ∃ p, (llmInferencePersistAndIndex o cid parsed rc ec db qd).1.conversations
          = db.conversations.map (fun c =>
              if c.id = cid then { c with form_snapshot := some p } else c) := by
    intro parsed rc ec
    unfold llmInferencePersistAndIndex
    cases hconv : getConv db cid with
    | none => left; rfl
    | some conv => right; exact ⟨parsed, rfl⟩
  unfold llm_inference_node
  cases hgen : o.generate with
  | exn e => left; rfl
  | ok raw =>
    cases hraw : raw.isEmpty with
    | true => left; simp [hraw]
    | false =>
      cases hext : extract_json raw with
      | some parsed =>
        simp only [hraw, Bool.false_eq_true, if_false, hext]
        exact hpersist parsed 0 1
      | none =>
        cases hrep : o.generateRepair with
        | exn e =>
          left
          simp [hraw, hext, hrep]
        | ok rep =>
          cases hext2 : extract_json rep with
          | none =>
            left
            simp [hraw, hext, hrep, hext2]
          | some parsed =>
            simp only [hraw, Bool.false_eq_true, if_false, hext, hrep, hext2]
            exact hpersist parsed 1 2

lemma run_planner_graph_conversations (o : PlannerOracle) (newTaskId : String)
    (a2aOk : Bool) (cid : String) (now : Nat) (db : DB) (qd : List QdrantPoint) :
    (run_planner_graph o newTaskId a2aOk cid now db qd).1.conversations
      = (llm_inference_node o cid db qd).1.conversations := by
  unfold run_planner_graph
  cases herr : (llm_inference_node o cid db qd).2.2.error with
  | some e => simp only [herr]
  | none =>
    simp only [herr]
    cases ha : (a2a_sender_node newTaskId a2aOk cid
        (llm_inference_node o cid db qd).2.2.llm_output now
        (llm_inference_node o cid db qd).1).2 with
    | some e =>
      simp only [ha]
      exact a2a_sender_node_conversations _ _ _ _ _ _
    | none =>
      simp only [ha]
      exact a2a_sender_node_conversations _ _ _ _ _ _

lemma find?_conv_id_of_mem (l : List ConversationRow)
    (hn : (l.map ConversationRow.id).Nodup) (c : ConversationRow) (hc : c ∈ l) :
    l.find? (fun x => x.id == c.id) = some c := by
  induction l with
  | nil => cases hc
  | cons a rest ih =>
    rcases List.mem_cons.mp hc with rfl | hrest
    · simp
    · have hne : (a.id == c.id) = false := by
        simp only [List.map_cons, List.nodup_cons] at hn
        have : c.id ∈ rest.map ConversationRow.id :=
          List.mem_map_of_mem ConversationRow.id hrest
        simp only [beq_eq_false_iff_ne, ne_eq]
        intro hcontra
        exact hn.1 (hcontra ▸ this)
      rw [List.find?_cons_of_neg _ (by simp [hne])]
      exact ih (by simp only [List.map_cons, List.nodup_cons] at hn; exact hn.2) hrest

lemma run_planner_graph_version (o : PlannerOracle) (newTaskId : String) (a2aOk : Bool)
    (cid : String) (now : Nat) (db : DB) (qd : List QdrantPoint) (conv : ConversationRow)
    (hconv : getConv db cid = some conv) :
    ∃ c', getConv (run_planner_graph o newTaskId a2aOk cid now db qd).1 cid = some c'
      ∧ c'.current_version = conv.current_version := by
  have hconvs := run_planner_graph_conversations o newTaskId a2aOk cid now db qd
  have hget : getConv (run_planner_graph o newTaskId a2aOk cid now db qd).1 cid
      = getConv (llm_inference_node o cid db qd).1 cid := by
    unfold getConv
    rw [hconvs]
  rcases llm_inference_node_conversations o cid db qd with hsame | ⟨parsed, hmap⟩
  · refine ⟨conv, ?_, rfl⟩
    rw [hget]
    unfold getConv at hconv ⊢
    rw [hsame]
    exact hconv
  · refine ⟨{ conv with form_snapshot := some parsed }, ?_, rfl⟩
    rw [hget]
    unfold getConv at hconv ⊢
    rw [hmap]
    rw [find?_map_if_eq ConversationRow.id db.conversations cid
          (fun c => { c with form_snapshot := some parsed }) (fun c => rfl), hconv]
    rfl

/-- C10: continuing a conversation whose status is not active returns the
400 error with the storage and the retrieval index fully unchanged (no
snapshot mutation, no version bump, no task enqueued) before the planner
pipeline runs; and the version counter of the conversation is incremented by
exactly one exactly on the 200 (successful continuation) path, staying
unchanged on every non-200 path. -/
theorem c10_continue_gate_and_version (o : PlannerOracle) (newTaskId : String)
    (a2aOk : Bool) (now : Nat) (db : DB) (qd : List QdrantPoint) (cid uid : String)
    (conv : ConversationRow)
    (hn : (db.conversations.map ConversationRow.id).Nodup)
    (hfind : db.conversations.find? (fun c => c.id == cid && c.user_id == uid)
        = some conv) :
    ((conv.status == "active") = false →
      continue_conversation o newTaskId a2aOk now db qd cid uid
        = (db, qd, { httpStatus := 400 }))
    ∧ (∀ c', getConv (continue_conversation o newTaskId a2aOk now db qd cid uid).1 cid
          = some c' →
        ((continue_conversation o newTaskId a2aOk now db qd cid uid).2.2.httpStatus = 200 →
          c'.current_version = conv.current_version + 1)
        ∧ ((continue_conversation o newTaskId a2aOk now db qd cid uid).2.2.httpStatus ≠ 200 →
          c'.current_version = conv.current_version)) := by
  have hcidconv : conv.id = cid := by
    have hp := List.find?_some hfind
    simp only [Bool.and_eq_true, beq_iff_eq] at hp
    exact hp.1
  have hmem : conv ∈ db.conversations := List.mem_of_find?_eq_some hfind
  have hgetconv : getConv db cid = some conv := by
    unfold getConv
    rw [← hcidconv]
    exact find?_conv_id_of_mem db.conversations hn conv hmem
  constructor
  · intro hstat
    unfold continue_conversation
    rw [hfind]
    simp only [hstat, Bool.not_false, if_true]
  · intro c' hc'
    unfold continue_conversation at hc' ⊢
    rw [hfind] at hc' ⊢
    by_cases hstat : (conv.status == "active") = true
    · simp only [hstat, Bool.not_true, Bool.false_eq_true, if_false] at hc' ⊢
      obtain ⟨c0, hc0, hv0⟩ :=
        run_planner_graph_version o newTaskId a2aOk cid now db qd conv hgetconv
      cases herr : (run_planner_graph o newTaskId a2aOk cid now db qd).2.2.error with
      | some e =>
        simp only [herr] at hc' ⊢
        rw [hc0] at hc'
        cases hc'
        constructor
        · intro h200
          cases h200
        · intro _
          exact hv0
      | none =>
        simp only [herr] at hc' ⊢
        rw [getConv_updateConvRow
              (run_planner_graph o newTaskId a2aOk cid now db qd).1 cid
              (versionBump now) (fun c => rfl), hc0] at hc'
        cases hc'
        constructor
        · intro _
          simp [versionBump, hv0]
        · intro hne
          exact absurd rfl hne
    · rw [Bool.not_eq_true] at hstat
      simp only [hstat, Bool.not_false, eq_self_iff_true, if_true] at hc' ⊢
      rw [hgetconv] at hc'
      cases hc'
      constructor
      · intro h200
        cases h200
      · intro _
        rfl

/-- C10 witness: the theorem applied at the completed-conversation fixture;
the gate answers 400 and leaves the storage and the index untouched. -/
theorem c10_continue_gate_and_version_witness :
    (convArch.status == "active") = false
    ∧ continue_conversation
        { generate := ExtCall.exn "down", generateRepair := ExtCall.exn "down",
          embed := ExtCall.exn "down", qdrantStoreFails := false }
        "t9" true 7 dbC [] "c2" "u1"
      = (dbC, [], { httpStatus := 400 }) := by
  refine ⟨by decide, ?_⟩
  exact (c10_continue_gate_and_version
      { generate := ExtCall.exn "down", generateRepair := ExtCall.exn "down",
        embed := ExtCall.exn "down", qdrantStoreFails := false }
      "t9" true 7 dbC [] "c2" "u1" convArch (by decide) rfl).1 (by decide)

lemma removeFencesF_nil (fuel : Nat) : removeFencesF fuel [] = [] := by
  cases fuel <;> rfl

lemma removeFencesF_cons_step (fuel : Nat) (c : Char) (rest : Str)
    (hj : fenceJsonMarker.isPrefixOf (c :: rest) = false)
    (hm : fenceMarker.isPrefixOf (c :: rest) = false) :
    removeFencesF (fuel + 1) (c :: rest) = c :: removeFencesF fuel rest := by
  simp [removeFencesF, hj, hm]

lemma removeFencesF_close (fuel : Nat) :
    removeFencesF (fuel + 1) fenceMarker = [] := by
  have hj : fenceJsonMarker.isPrefixOf fenceMarker = false := by decide
  have hm : fenceMarker.isPrefixOf fenceMarker = true := by decide
  simp [removeFencesF, hj, hm, fenceMarker, removeFencesF_nil]

lemma fence_marker_prefix_append (l : Str) :
    fenceMarker.isPrefixOf (fenceMarker ++ l) = true := by
  rw [List.isPrefixOf_iff_prefix]
  exact List.prefix_append fenceMarker l

lemma fence_json_prefix_append (l : Str) :
    fenceJsonMarker.isPrefixOf (fenceJsonMarker ++ l) = true := by
  rw [List.isPrefixOf_iff_prefix]
  exact List.prefix_append fenceJsonMarker l

lemma json_not_prefix_of_fence_nl (l : Str) :
    fenceJsonMarker.isPrefixOf (fenceMarker ++ '\n' :: l) = false := by
  by_contra h
  rw [Bool.not_eq_false, List.isPrefixOf_iff_prefix] at h
  obtain ⟨r, hr⟩ := h
  simp [fenceJsonMarker, fenceMarker] at hr

lemma not_prefix_of_head_ne (m : Str) (c : Char) (l : Str) (d : Char) (mr : Str)
    (hm : m = d :: mr) (hne : (d == c) = false) :
    m.isPrefixOf (c :: l) = false := by
  subst hm
  by_contra h
  rw [Bool.not_eq_false, List.isPrefixOf_iff_prefix] at h
  obtain ⟨r, hr⟩ := h
  simp at hr
  exact absurd hr.1 (beq_eq_false_iff_ne.mp hne)

lemma fence_not_prefix_boundary (c : Char) (s' : Str)
    (hno : ¬ fenceMarker <:+: (c :: s')) :
    fenceMarker.isPrefixOf ((c :: s') ++ '\n' :: fenceMarker) = false := by
  by_contra h
  rw [Bool.not_eq_false, List.isPrefixOf_iff_prefix] at h
  obtain ⟨r, hr⟩ := h
  cases s' with
  | nil =>
    simp [fenceMarker] at hr
    exact absurd hr.2.1 (by decide)
  | cons d s'' =>
    cases s'' with
    | nil =>
      simp [fenceMarker] at hr
      exact absurd hr.2.2.1 (by decide)
    | cons e s''' =>
      simp [fenceMarker] at hr
      refine hno ?_
      have heq : c :: d :: e :: s''' = fenceMarker ++ s''' := by
        rw [← hr.1, ← hr.2.1, ← hr.2.2.1]; rfl
      rw [heq]
      exact List.IsPrefix.isInfix (List.prefix_append fenceMarker s''')

lemma json_not_prefix_boundary (c : Char) (s' : Str)
    (hno : ¬ fenceMarker <:+: (c :: s')) :
    fenceJsonMarker.isPrefixOf ((c :: s') ++ '\n' :: fenceMarker) = false := by
  by_contra h
  rw [Bool.not_eq_false, List.isPrefixOf_iff_prefix] at h
  have hpre : fenceMarker <+: fenceJsonMarker := List.prefix_append fenceMarker _
  have h2 : fenceMarker <+: ((c :: s') ++ '\n' :: fenceMarker) := hpre.trans h
  have hfalse := fence_not_prefix_boundary c s' hno
  rw [← List.isPrefixOf_iff_prefix] at h2
  rw [hfalse] at h2
  cases h2

lemma removeFencesF_scan (s : Str) : ∀ (fuel : Nat), s.length + 4 ≤ fuel →
    ¬ fenceMarker <:+: s →
    removeFencesF fuel (s ++ '\n' :: fenceMarker) = s ++ ['\n'] := by
  induction s with
  | nil =>
    intro fuel hf _
    obtain ⟨f, rfl⟩ : ∃ f, fuel = f + 2 := ⟨fuel - 2, by omega⟩
    rw [List.nil_append,
      removeFencesF_cons_step (f + 1) '\n' fenceMarker (by decide) (by decide),
      removeFencesF_close f]
    rfl
  | cons c s' ih =>
    intro fuel hf hno
    obtain ⟨f, rfl⟩ : ∃ f, fuel = f + 1 := ⟨fuel - 1, by omega⟩
    have hno' : ¬ fenceMarker <:+: s' := by
      intro h
      exact hno (h.trans (List.IsSuffix.isInfix (List.suffix_cons c s')))
    rw [List.cons_append,
      removeFencesF_cons_step f c (s' ++ '\n' :: fenceMarker)
        (json_not_prefix_boundary c s' hno)
        (fence_not_prefix_boundary c s' hno),
      ih f (by simp at hf; omega) hno']
    rfl

lemma removeFencesF_fence_step (fuel : Nat) (c : Char) (rest : Str)
    (hj : fenceJsonMarker.isPrefixOf (c :: rest) = false)
    (hm : fenceMarker.isPrefixOf (c :: rest) = true) :
    removeFencesF (fuel + 1) (c :: rest) = removeFencesF fuel ((c :: rest).drop 3) := by
  simp [removeFencesF, hj, hm]

lemma removeFencesF_json_step (fuel : Nat) (c : Char) (rest : Str)
    (hj : fenceJsonMarker.isPrefixOf (c :: rest) = true) :
    removeFencesF (fuel + 1) (c :: rest) = removeFencesF fuel ((c :: rest).drop 7) := by
  simp [removeFencesF, hj]

lemma removeFencesF_tail_scan (s : Str) (k : Nat) (hk : s.length + 4 ≤ k)
    (hno : ¬ fenceMarker <:+: s) :
    removeFencesF (k + 1) ('\n' :: (s ++ '\n' :: fenceMarker)) = '\n' :: (s ++ ['\n']) := by
  rw [removeFencesF_cons_step k '\n' (s ++ '\n' :: fenceMarker)
      (not_prefix_of_head_ne _ _ _ btick _ rfl (by decide))
      (not_prefix_of_head_ne _ _ _ btick _ rfl (by decide)),
    removeFencesF_scan s k hk hno]

lemma removeFences_wrapFence (s : Str) (hno : ¬ fenceMarker <:+: s) :
    removeFences (wrapFence s) = '\n' :: (s ++ ['\n']) := by
  have hlen : (wrapFence s).length = (s.length + 7) + 1 := by
    simp [wrapFence, fenceMarker]
  rw [removeFences, hlen]
  show removeFencesF ((s.length + 7) + 1)
      (btick :: (btick :: btick :: ('\n' :: (s ++ '\n' :: fenceMarker)))) = _
  rw [removeFencesF_fence_step (s.length + 7) btick
      (btick :: btick :: ('\n' :: (s ++ '\n' :: fenceMarker)))
      (json_not_prefix_of_fence_nl (s ++ '\n' :: fenceMarker))
      (fence_marker_prefix_append ('\n' :: (s ++ '\n' :: fenceMarker)))]
  show removeFencesF ((s.length + 6) + 1) ('\n' :: (s ++ '\n' :: fenceMarker)) = _
  exact removeFencesF_tail_scan s (s.length + 6) (by omega) hno

lemma removeFences_wrapFenceJson (s : Str) (hno : ¬ fenceMarker <:+: s) :
    removeFences (wrapFenceJson s) = '\n' :: (s ++ ['\n']) := by
  have hlen : (wrapFenceJson s).length = (s.length + 11) + 1 := by
    simp [wrapFenceJson, fenceJsonMarker, fenceMarker]
  rw [removeFences, hlen]
  show removeFencesF ((s.length + 11) + 1)
      (btick :: (btick :: btick :: 'j' :: 's' :: 'o' :: 'n' ::
        ('\n' :: (s ++ '\n' :: fenceMarker)))) = _
  rw [removeFencesF_json_step (s.length + 11) btick
      (btick :: btick :: 'j' :: 's' :: 'o' :: 'n' :: ('\n' :: (s ++ '\n' :: fenceMarker)))
      (fence_json_prefix_append ('\n' :: (s ++ '\n' :: fenceMarker)))]
  show removeFencesF ((s.length + 10) + 1) ('\n' :: (s ++ '\n' :: fenceMarker)) = _
  exact removeFencesF_tail_scan s (s.length + 10) (by omega) hno

lemma pyStrip_cons_space (c : Char) (l : Str) (hc : isPySpace c = true) :
    pyStrip (c :: l) = pyStrip l := by
  unfold pyStrip
  rw [List.dropWhile_cons, hc]
  simp

lemma pyStrip_append_space (l : Str) (c : Char) (hc : isPySpace c = true) :
    pyStrip (l ++ [c]) = pyStrip l := by
  unfold pyStrip
  rw [List.dropWhile_append]
  cases he : (l.dropWhile isPySpace).isEmpty with
  | true =>
    rw [List.isEmpty_iff] at he
    simp [he, List.dropWhile_cons, hc]
  | false =>
    simp only [if_false, Bool.false_eq_true]
    rw [List.reverse_append]
    simp only [List.reverse_cons, List.reverse_nil, List.nil_append, List.singleton_append]
    rw [List.dropWhile_cons, hc]
    simp

lemma pyStrip_eq_self_of_ends (c d : Char) (mid : Str)
    (hc : isPySpace c = false) (hd : isPySpace d = false) :
    pyStrip (c :: (mid ++ [d])) = c :: (mid ++ [d]) := by
  unfold pyStrip
  rw [List.dropWhile_cons, hc]
  simp only [Bool.false_eq_true, if_false]
  rw [show (c :: (mid ++ [d])).reverse = d :: (mid.reverse ++ [c]) from by simp]
  rw [List.dropWhile_cons, hd]
  simp

lemma pyStrip_within (s : Str) : pyStrip s <:+: s := by
  unfold pyStrip
  have h1 : s.dropWhile isPySpace <:+ s := List.dropWhile_suffix isPySpace
  have h2 : (s.dropWhile isPySpace).reverse.dropWhile isPySpace <:+
      (s.dropWhile isPySpace).reverse := List.dropWhile_suffix isPySpace
  have h3 : ((s.dropWhile isPySpace).reverse.dropWhile isPySpace).reverse <+:
      s.dropWhile isPySpace := by
    rw [← List.reverse_reverse ((s.dropWhile isPySpace).reverse.dropWhile isPySpace)] at h2
    exact (List.reverse_suffix).mp h2
  exact h3.isInfix.trans h1.isInfix

lemma fence_not_prefix_strip (s : Str) (hno : ¬ fenceMarker <:+: s) :
    fenceMarker.isPrefixOf (pyStrip s) = false := by
  by_contra h
  rw [Bool.not_eq_false, List.isPrefixOf_iff_prefix] at h
  exact hno (h.isInfix.trans (pyStrip_within s))

lemma pyStrip_wrapFence (s : Str) : pyStrip (wrapFence s) = wrapFence s := by
  have hsh : wrapFence s
      = btick :: ((btick :: btick :: '\n' :: (s ++ ['\n', btick, btick])) ++ [btick]) := by
    simp [wrapFence, fenceMarker]
  rw [hsh]
  exact pyStrip_eq_self_of_ends btick btick _ (by decide) (by decide)

lemma pyStrip_wrapFenceJson (s : Str) : pyStrip (wrapFenceJson s) = wrapFenceJson s := by
  have hsh : wrapFenceJson s
      = btick :: ((btick :: btick :: 'j' :: 's' :: 'o' :: 'n' :: '\n' ::
          (s ++ ['\n', btick, btick])) ++ [btick]) := by
    simp [wrapFenceJson, fenceJsonMarker, fenceMarker]
  rw [hsh]
  exact pyStrip_eq_self_of_ends btick btick _ (by decide) (by decide)

lemma pyStrip_nl_wrap (s : Str) : pyStrip ('\n' :: (s ++ ['\n'])) = pyStrip s := by
  rw [pyStrip_cons_space '\n' (s ++ ['\n']) (by decide),
    pyStrip_append_space s '\n' (by decide)]

/-- C9: the fence round-trip property fails in general: extract_json removes
every occurrence of the fence markers, also inside JSON string values, so a
fenced serialization whose payload itself contains three consecutive
backticks extracts to a different object than the bare serialization. -/
theorem c9_fence_roundtrip_counterexample :
    loads exObj = some (Json.obj [(['a'], Json.str [btick, btick, btick])])
    ∧ extract_json exObj = some [(['a'], Json.str [btick, btick, btick])]
    ∧ extract_json (wrapFenceJson exObj) = some [(['a'], Json.str [])]
    ∧ extract_json (wrapFenceJson exObj) ≠ extract_json exObj := by
  have h1 : extract_json exObj = some [(['a'], Json.str [btick, btick, btick])] := rfl
  have h2 : extract_json (wrapFenceJson exObj) = some [(['a'], Json.str [])] := rfl
  refine ⟨rfl, h1, h2, ?_⟩
  rw [h1, h2]
  intro h
  simp at h

/-- C9 amended: for a text s that contains no three-backtick run and whose
stripped form parses as a JSON object, extraction of s, of s wrapped in plain
fences, and of s wrapped in json-tagged fences all yield that object's
members. -/
theorem c9_fence_roundtrip_amended (s : Str) (kvs : List (Str × Json))
    (hload : loads (pyStrip s) = some (Json.obj kvs))
    (hno : ¬ fenceMarker <:+: s) :
    extract_json s = some kvs
    ∧ extract_json (wrapFence s) = some kvs
    ∧ extract_json (wrapFenceJson s) = some kvs := by
  have hsne : s.isEmpty = false := by
    cases s with
    | nil => exact Option.noConfusion hload
    | cons c l => rfl
  refine ⟨?_, ?_, ?_⟩
  · have hpre := fence_not_prefix_strip s hno
    unfold extract_json
    simp only [hsne, Bool.false_eq_true, if_false, hpre, hload]
  · have hempty : (wrapFence s).isEmpty = false := by
      simp [wrapFence, fenceMarker]
    have hpre : fenceMarker.isPrefixOf (wrapFence s) = true :=
      fence_marker_prefix_append (('\n' :: s) ++ ('\n' :: fenceMarker))
    unfold extract_json
    rw [hempty]
    simp only [Bool.false_eq_true, if_false]
    rw [pyStrip_wrapFence, hpre]
    simp only [eq_self_iff_true, if_true]
    rw [removeFences_wrapFence s hno, pyStrip_nl_wrap, hload]
  · have hempty : (wrapFenceJson s).isEmpty = false := by
      simp [wrapFenceJson, fenceJsonMarker, fenceMarker]
    have hpre : fenceMarker.isPrefixOf (wrapFenceJson s) = true :=
      fence_marker_prefix_append (['j', 's', 'o', 'n'] ++ (('\n' :: s) ++ ('\n' :: fenceMarker)))
    unfold extract_json
    rw [hempty]
    simp only [Bool.false_eq_true, if_false]
    rw [pyStrip_wrapFenceJson, hpre]
    simp only [eq_self_iff_true, if_true]
    rw [removeFences_wrapFenceJson s hno, pyStrip_nl_wrap, hload]

/-- C9 amended witness: the theorem applied to the fixture serialization of
the object mapping a to 1. -/
theorem c9_fence_roundtrip_amended_witness :
    (loads (pyStrip exOk) = some (Json.obj [(['a'], Json.num 1)])
      ∧ ¬ fenceMarker <:+: exOk)
    ∧ (extract_json exOk = some [(['a'], Json.num 1)]
      ∧ extract_json (wrapFence exOk) = some [(['a'], Json.num 1)]
      ∧ extract_json (wrapFenceJson exOk) = some [(['a'], Json.num 1)]) := by
  refine ⟨⟨rfl, by decide⟩, ?_⟩
  exact c9_fence_roundtrip_amended exOk [(['a'], Json.num 1)] rfl (by decide)
